/-
  Verification of the RemoteDesk2K wire-layer core.

  Shallow embedding of the C sources into Lean 4:
  - src/common/crypto.c   (symmetric cipher, DWORD helpers, Server-ID codec)
  - src/common/common.h   (frame checksum)
  - src/network.c         (peer frame receive validation)
  - src/screen.c          (RLE compress / decompress)
  - src/relay/relay.c     (relay registration, forwarding, disconnect)
  - src/linux/relay.c     (relay DATA forwarding, POSIX port)
  - src/client/remotedesk2k.c (host handshake check)
  - src/client/filetransfer.c (file-transfer initiation and receive validation)

  Bytes are Nat < 256, DWORDs are Nat < 2^32; buffers are List Nat.
  Each definition mirrors the corresponding C function; theorems state the
  specification properties over these definitions.
-/
import Mathlib

namespace RD2K

/- ===================== Cipher (src/common/crypto.c) ===================== -/

/-- S-box table, g_SBox in src/common/crypto.c lines 26-43. -/
def sBoxTable : List Nat := [
  0x63, 0x7C, 0x77, 0x7B, 0xF2, 0x6B, 0x6F, 0xC5, 0x30, 0x01, 0x67, 0x2B, 0xFE, 0xD7, 0xAB, 0x76,
  0xCA, 0x82, 0xC9, 0x7D, 0xFA, 0x59, 0x47, 0xF0, 0xAD, 0xD4, 0xA2, 0xAF, 0x9C, 0xA4, 0x72, 0xC0,
  0xB7, 0xFD, 0x93, 0x26, 0x36, 0x3F, 0xF7, 0xCC, 0x34, 0xA5, 0xE5, 0xF1, 0x71, 0xD8, 0x31, 0x15,
  0x04, 0xC7, 0x23, 0xC3, 0x18, 0x96, 0x05, 0x9A, 0x07, 0x12, 0x80, 0xE2, 0xEB, 0x27, 0xB2, 0x75,
  0x09, 0x83, 0x2C, 0x1A, 0x1B, 0x6E, 0x5A, 0xA0, 0x52, 0x3B, 0xD6, 0xB3, 0x29, 0xE3, 0x2F, 0x84,
  0x53, 0xD1, 0x00, 0xED, 0x20, 0xFC, 0xB1, 0x5B, 0x6A, 0xCB, 0xBE, 0x39, 0x4A, 0x4C, 0x58, 0xCF,
  0xD0, 0xEF, 0xAA, 0xFB, 0x43, 0x4D, 0x33, 0x85, 0x45, 0xF9, 0x02, 0x7F, 0x50, 0x3C, 0x9F, 0xA8,
  0x51, 0xA3, 0x40, 0x8F, 0x92, 0x9D, 0x38, 0xF5, 0xBC, 0xB6, 0xDA, 0x21, 0x10, 0xFF, 0xF3, 0xD2,
  0xCD, 0x0C, 0x13, 0xEC, 0x5F, 0x97, 0x44, 0x17, 0xC4, 0xA7, 0x7E, 0x3D, 0x64, 0x5D, 0x19, 0x73,
  0x60, 0x81, 0x4F, 0xDC, 0x22, 0x2A, 0x90, 0x88, 0x46, 0xEE, 0xB8, 0x14, 0xDE, 0x5E, 0x0B, 0xDB,
  0xE0, 0x32, 0x3A, 0x0A, 0x49, 0x06, 0x24, 0x5C, 0xC2, 0xD3, 0xAC, 0x62, 0x91, 0x95, 0xE4, 0x79,
  0xE7, 0xC8, 0x37, 0x6D, 0x8D, 0xD5, 0x4E, 0xA9, 0x6C, 0x56, 0xF4, 0xEA, 0x65, 0x7A, 0xAE, 0x08,
  0xBA, 0x78, 0x25, 0x2E, 0x1C, 0xA6, 0xB4, 0xC6, 0xE8, 0xDD, 0x74, 0x1F, 0x4B, 0xBD, 0x8B, 0x8A,
  0x70, 0x3E, 0xB5, 0x66, 0x48, 0x03, 0xF6, 0x0E, 0x61, 0x35, 0x57, 0xB9, 0x86, 0xC1, 0x1D, 0x9E,
  0xE1, 0xF8, 0x98, 0x11, 0x69, 0xD9, 0x8E, 0x94, 0x9B, 0x1E, 0x87, 0xE9, 0xCE, 0x55, 0x28, 0xDF,
  0x8C, 0xA1, 0x89, 0x0D, 0xBF, 0xE6, 0x42, 0x68, 0x41, 0x99, 0x2D, 0x0F, 0xB0, 0x54, 0xBB, 0x16]

/-- Inverse S-box table, g_InvSBox in src/common/crypto.c lines 46-63. -/
def invSBoxTable : List Nat := [
  0x52, 0x09, 0x6A, 0xD5, 0x30, 0x36, 0xA5, 0x38, 0xBF, 0x40, 0xA3, 0x9E, 0x81, 0xF3, 0xD7, 0xFB,
  0x7C, 0xE3, 0x39, 0x82, 0x9B, 0x2F, 0xFF, 0x87, 0x34, 0x8E, 0x43, 0x44, 0xC4, 0xDE, 0xE9, 0xCB,
  0x54, 0x7B, 0x94, 0x32, 0xA6, 0xC2, 0x23, 0x3D, 0xEE, 0x4C, 0x95, 0x0B, 0x42, 0xFA, 0xC3, 0x4E,
  0x08, 0x2E, 0xA1, 0x66, 0x28, 0xD9, 0x24, 0xB2, 0x76, 0x5B, 0xA2, 0x49, 0x6D, 0x8B, 0xD1, 0x25,
  0x72, 0xF8, 0xF6, 0x64, 0x86, 0x68, 0x98, 0x16, 0xD4, 0xA4, 0x5C, 0xCC, 0x5D, 0x65, 0xB6, 0x92,
  0x6C, 0x70, 0x48, 0x50, 0xFD, 0xED, 0xB9, 0xDA, 0x5E, 0x15, 0x46, 0x57, 0xA7, 0x8D, 0x9D, 0x84,
  0x90, 0xD8, 0xAB, 0x00, 0x8C, 0xBC, 0xD3, 0x0A, 0xF7, 0xE4, 0x58, 0x05, 0xB8, 0xB3, 0x45, 0x06,
  0xD0, 0x2C, 0x1E, 0x8F, 0xCA, 0x3F, 0x0F, 0x02, 0xC1, 0xAF, 0xBD, 0x03, 0x01, 0x13, 0x8A, 0x6B,
  0x3A, 0x91, 0x11, 0x41, 0x4F, 0x67, 0xDC, 0xEA, 0x97, 0xF2, 0xCF, 0xCE, 0xF0, 0xB4, 0xE6, 0x73,
  0x96, 0xAC, 0x74, 0x22, 0xE7, 0xAD, 0x35, 0x85, 0xE2, 0xF9, 0x37, 0xE8, 0x1C, 0x75, 0xDF, 0x6E,
  0x47, 0xF1, 0x1A, 0x71, 0x1D, 0x29, 0xC5, 0x89, 0x6F, 0xB7, 0x62, 0x0E, 0xAA, 0x18, 0xBE, 0x1B,
  0xFC, 0x56, 0x3E, 0x4B, 0xC6, 0xD2, 0x79, 0x20, 0x9A, 0xDB, 0xC0, 0xFE, 0x78, 0xCD, 0x5A, 0xF4,
  0x1F, 0xDD, 0xA8, 0x33, 0x88, 0x07, 0xC7, 0x31, 0xB1, 0x12, 0x10, 0x59, 0x27, 0x80, 0xEC, 0x5F,
  0x60, 0x51, 0x7F, 0xA9, 0x19, 0xB5, 0x4A, 0x0D, 0x2D, 0xE5, 0x7A, 0x9F, 0x93, 0xC9, 0x9C, 0xEF,
  0xA0, 0xE0, 0x3B, 0x4D, 0xAE, 0x2A, 0xF5, 0xB0, 0xC8, 0xEB, 0xBB, 0x3C, 0x83, 0x53, 0x99, 0x61,
  0x17, 0x2B, 0x04, 0x7E, 0xBA, 0x77, 0xD6, 0x26, 0xE1, 0x69, 0x14, 0x63, 0x55, 0x21, 0x0C, 0x7D]

/-- Default master key, g_DefaultKey in src/common/crypto.c lines 66-71. -/
def g_DefaultKey : List Nat :=
  [0x52, 0x44, 0x32, 0x4B, 0xDE, 0xAD, 0xBE, 0xEF,
   0xCA, 0xFE, 0xBA, 0xBE, 0x20, 0x00, 0x20, 0x26]

/-- Byte lookup in the S-box (array indexing g_SBox[x]). -/
def sBox (x : Nat) : Nat := sBoxTable.getD x 0

/-- Byte lookup in the inverse S-box (array indexing g_InvSBox[x]). -/
def invSBox (x : Nat) : Nat := invSBoxTable.getD x 0

/-- RotateLeft from crypto.c lines 78-82: shift &= 7, then
    (BYTE)((value << shift) | (value >> (8 - shift))). -/
def RotateLeft (value shift : Nat) : Nat :=
  ((value <<< (shift % 8)) ||| (value >>> (8 - shift % 8))) % 256

/-- RotateRight from crypto.c lines 85-89. -/
def RotateRight (value shift : Nat) : Nat :=
  ((value >>> (shift % 8)) ||| (value <<< (8 - shift % 8))) % 256

/-- One iteration of the Crypto_Encrypt loop body (crypto.c lines 151-166)
    at byte position i with the 16-byte key key. -/
def encryptByte (key : List Nat) (i b : Nat) : Nat :=
  RotateLeft (sBox (b ^^^ key.getD (i % 16) 0)) ((i + 1) % 7 + 1) ^^^ (i * 37 % 256)

/-- One iteration of the Crypto_Decrypt loop body (crypto.c lines 194-211). -/
def decryptByte (key : List Nat) (i b : Nat) : Nat :=
  invSBox (RotateRight (b ^^^ (i * 37 % 256)) ((i + 1) % 7 + 1)) ^^^ key.getD (i % 16) 0

/-- Crypto_Encrypt loop starting at byte position i (crypto.c lines 137-170).
    The list is the buffer contents; the result is the buffer after the loop. -/
def cryptoEncryptFrom (key : List Nat) : Nat → List Nat → List Nat
  | _, [] => []
  | i, b :: rest => encryptByte key i b :: cryptoEncryptFrom key (i + 1) rest

/-- Crypto_Decrypt loop starting at byte position i (crypto.c lines 180-215). -/
def cryptoDecryptFrom (key : List Nat) : Nat → List Nat → List Nat
  | _, [] => []
  | i, b :: rest => decryptByte key i b :: cryptoDecryptFrom key (i + 1) rest

/-- Crypto_Encrypt (crypto.c lines 137-170): in-place transform of the whole
    buffer, positions counted from 0.  (For length 0 the C function returns
    CRYPTO_ERR_INVALID and leaves the buffer alone; the empty list maps to
    the empty list here.) -/
def Crypto_Encrypt (key : List Nat) (data : List Nat) : List Nat :=
  cryptoEncryptFrom key 0 data

/-- Crypto_Decrypt (crypto.c lines 180-215). -/
def Crypto_Decrypt (key : List Nat) (data : List Nat) : List Nat :=
  cryptoDecryptFrom key 0 data

/-- Crypto_EncryptDWORD (crypto.c lines 218-236): split little-endian into
    4 bytes, encrypt, recombine. -/
def Crypto_EncryptDWORD (key : List Nat) (value : Nat) : Nat :=
  let buffer := [value &&& 0xFF, (value >>> 8) &&& 0xFF,
                 (value >>> 16) &&& 0xFF, (value >>> 24) &&& 0xFF]
  let e := Crypto_Encrypt key buffer
  e.getD 0 0 ||| (e.getD 1 0 <<< 8) ||| (e.getD 2 0 <<< 16) ||| (e.getD 3 0 <<< 24)

/-- Crypto_DecryptDWORD (crypto.c lines 239-257). -/
def Crypto_DecryptDWORD (key : List Nat) (encrypted : Nat) : Nat :=
  let buffer := [encrypted &&& 0xFF, (encrypted >>> 8) &&& 0xFF,
                 (encrypted >>> 16) &&& 0xFF, (encrypted >>> 24) &&& 0xFF]
  let d := Crypto_Decrypt key buffer
  d.getD 0 0 ||| (d.getD 1 0 <<< 8) ||| (d.getD 2 0 <<< 16) ||| (d.getD 3 0 <<< 24)


set_option maxRecDepth 4096 in
lemma invSBox_sBox : ∀ x < 256, invSBox (sBox x) = x := by decide

set_option maxRecDepth 4096 in
lemma sBox_lt_aux : ∀ x < 256, sBox x < 256 := by decide

set_option maxRecDepth 8192 in
lemma sBox_lt (x : Nat) : sBox x < 256 := by
  by_cases h : x < 256
  · exact sBox_lt_aux x h
  · have hlen : sBoxTable.length ≤ x := by
      have h2 : sBoxTable.length = 256 := by simp [sBoxTable]
      omega
    rw [sBox, List.getD_eq_default _ _ hlen]
    norm_num

lemma RotateLeft_lt (v s : Nat) : RotateLeft v s < 256 :=
  Nat.mod_lt _ (by norm_num)

set_option maxRecDepth 4096 in
lemma RotateRight_RotateLeft : ∀ v < 256, ∀ s < 8, RotateRight (RotateLeft v s) s = v := by
  decide


/- ===================== Generic bit lemmas ===================== -/

lemma shiftRight_lor_distrib (x y n : Nat) : (x ||| y) >>> n = (x >>> n) ||| (y >>> n) := by
  apply Nat.eq_of_testBit_eq
  intro i
  simp [Nat.testBit_lor, Nat.testBit_shiftRight]

lemma lor_shiftLeft_eq_add {a : Nat} (b n : Nat) (h : a < 2 ^ n) :
    (b <<< n) ||| a = b * 2 ^ n + a := by
  have hmod : ((b <<< n) ||| a) % 2 ^ n = a := by
    have h1 : ((b <<< n) ||| a) &&& (2 ^ n - 1)
        = ((b <<< n) &&& (2 ^ n - 1)) ||| (a &&& (2 ^ n - 1)) :=
      Nat.and_distrib_right _ _ _
    have h2 : (b <<< n) &&& (2 ^ n - 1) = 0 := by
      rw [Nat.and_pow_two_sub_one_eq_mod, Nat.shiftLeft_eq, Nat.mul_mod_left]
    have h3 : a &&& (2 ^ n - 1) = a := by
      rw [Nat.and_pow_two_sub_one_eq_mod, Nat.mod_eq_of_lt h]
    rw [← Nat.and_pow_two_sub_one_eq_mod, h1, h2, h3]
    simp
  have hdiv : ((b <<< n) ||| a) / 2 ^ n = b := by
    have h1 : ((b <<< n) ||| a) >>> n = ((b <<< n) >>> n) ||| (a >>> n) :=
      shiftRight_lor_distrib _ _ _
    have h2 : (b <<< n) >>> n = b := by
      rw [Nat.shiftLeft_eq, Nat.shiftRight_eq_div_pow,
        Nat.mul_div_cancel _ (Nat.pos_pow_of_pos n (by norm_num))]
    have h3 : a >>> n = 0 := by
      rw [Nat.shiftRight_eq_div_pow]
      exact Nat.div_eq_of_lt h
    rw [Nat.shiftRight_eq_div_pow] at h1
    rw [h1, h2, h3]
    simp
  calc (b <<< n) ||| a
      = 2 ^ n * (((b <<< n) ||| a) / 2 ^ n) + ((b <<< n) ||| a) % 2 ^ n :=
        (Nat.div_add_mod _ _).symm
    _ = b * 2 ^ n + a := by rw [hdiv, hmod]; ring

lemma xor_lt_256 {a b : Nat} (ha : a < 256) (hb : b < 256) : a ^^^ b < 256 := by
  have h256 : (256 : Nat) = 2 ^ 8 := by norm_num
  rw [h256] at ha hb ⊢
  exact Nat.xor_lt_two_pow ha hb

lemma getD_lt_of_mem (l : List Nat) (n : Nat) (h : ∀ k ∈ l, k < 256) : l.getD n 0 < 256 := by
  by_cases hn : n < l.length
  · rw [List.getD_eq_getElem _ _ hn]
    exact h _ (List.getElem_mem hn)
  · rw [List.getD_eq_default _ _ (Nat.le_of_not_lt hn)]
    norm_num

/- ===================== Cipher round-trip ===================== -/

lemma encryptByte_lt (key : List Nat) (i b : Nat) : encryptByte key i b < 256 := by
  have h1 : RotateLeft (sBox (b ^^^ key.getD (i % 16) 0)) ((i + 1) % 7 + 1) < 256 :=
    RotateLeft_lt _ _
  have h2 : i * 37 % 256 < 256 := Nat.mod_lt _ (by norm_num)
  exact xor_lt_256 h1 h2

lemma decryptByte_encryptByte (key : List Nat) (i b : Nat)
    (hkey : ∀ k ∈ key, k < 256) (hb : b < 256) :
    decryptByte key i (encryptByte key i b) = b := by
  have hk : key.getD (i % 16) 0 < 256 := getD_lt_of_mem key _ hkey
  have ht1 : b ^^^ key.getD (i % 16) 0 < 256 := xor_lt_256 hb hk
  have hs : (i + 1) % 7 + 1 < 8 := by
    have := Nat.mod_lt (i + 1) (show 0 < 7 by norm_num)
    omega
  rw [decryptByte, encryptByte, Nat.xor_cancel_right,
    RotateRight_RotateLeft _ (sBox_lt _) _ hs, invSBox_sBox _ ht1, Nat.xor_cancel_right]

lemma cryptoDecryptFrom_encryptFrom (key : List Nat) (hkey : ∀ k ∈ key, k < 256) :
    ∀ (data : List Nat) (i : Nat), (∀ b ∈ data, b < 256) →
      cryptoDecryptFrom key i (cryptoEncryptFrom key i data) = data := by
  intro data
  induction data with
  | nil => intro i h; rfl
  | cons b rest ih =>
    intro i hd
    have hb : b < 256 := hd b (by simp)
    have hrest : ∀ y ∈ rest, y < 256 := fun y hy => hd y (by simp [hy])
    simp only [cryptoEncryptFrom, cryptoDecryptFrom]
    rw [decryptByte_encryptByte key i b hkey hb, ih (i + 1) hrest]

lemma and_255_eq_mod (x : Nat) : x &&& 255 = x % 256 := by
  have h := Nat.and_pow_two_sub_one_eq_mod x 8
  norm_num at h
  exact h

lemma shr8_eq_div (x : Nat) : x >>> 8 = x / 256 := by
  rw [Nat.shiftRight_eq_div_pow]

lemma shr16_eq_div (x : Nat) : x >>> 16 = x / 65536 := by
  rw [Nat.shiftRight_eq_div_pow]

lemma shr24_eq_div (x : Nat) : x >>> 24 = x / 16777216 := by
  rw [Nat.shiftRight_eq_div_pow]

lemma lor_shl8 (b : Nat) {a : Nat} (h : a < 256) : (b <<< 8) ||| a = b * 256 + a := by
  have h2 : (2 : Nat) ^ 8 = 256 := by norm_num
  have h3 := lor_shiftLeft_eq_add b 8 (by rw [h2]; exact h)
  rw [h2] at h3
  exact h3

lemma lor_shl16 (b : Nat) {a : Nat} (h : a < 65536) : (b <<< 16) ||| a = b * 65536 + a := by
  have h2 : (2 : Nat) ^ 16 = 65536 := by norm_num
  have h3 := lor_shiftLeft_eq_add b 16 (by rw [h2]; exact h)
  rw [h2] at h3
  exact h3

lemma lor_shl24 (b : Nat) {a : Nat} (h : a < 16777216) : (b <<< 24) ||| a = b * 16777216 + a := by
  have h2 : (2 : Nat) ^ 24 = 16777216 := by norm_num
  have h3 := lor_shiftLeft_eq_add b 24 (by rw [h2]; exact h)
  rw [h2] at h3
  exact h3

lemma combine4 {a b c d : Nat} (ha : a < 256) (hb : b < 256) (hc : c < 256) (hd : d < 256) :
    a ||| (b <<< 8) ||| (c <<< 16) ||| (d <<< 24)
      = a + b * 256 + c * 65536 + d * 16777216 := by
  have h1 : a ||| (b <<< 8) = b * 256 + a := by
    rw [Nat.lor_comm]
    exact lor_shl8 b ha
  have h2 : b * 256 + a ||| (c <<< 16) = c * 65536 + (b * 256 + a) := by
    rw [Nat.lor_comm]
    exact lor_shl16 c (by omega)
  have h3 : c * 65536 + (b * 256 + a) ||| (d <<< 24)
      = d * 16777216 + (c * 65536 + (b * 256 + a)) := by
    rw [Nat.lor_comm]
    exact lor_shl24 d (by omega)
  rw [h1, h2, h3]
  ring

lemma decryptDWORD_encryptDWORD (key : List Nat) (x : Nat)
    (hkey : ∀ k ∈ key, k < 256) (hx : x < 2 ^ 32) :
    Crypto_DecryptDWORD key (Crypto_EncryptDWORD key x) = x := by
  have hxlit : x < 4294967296 := by
    have h2 : (2 : Nat) ^ 32 = 4294967296 := by norm_num
    omega
  have hB0 : x &&& 0xFF < 256 := by rw [and_255_eq_mod]; omega
  have hB1 : x >>> 8 &&& 0xFF < 256 := by rw [and_255_eq_mod]; omega
  have hB2 : x >>> 16 &&& 0xFF < 256 := by rw [and_255_eq_mod]; omega
  have hB3 : x >>> 24 &&& 0xFF < 256 := by rw [and_255_eq_mod]; omega
  have hE0 : encryptByte key 0 (x &&& 0xFF) < 256 := encryptByte_lt key 0 _
  have hE1 : encryptByte key 1 (x >>> 8 &&& 0xFF) < 256 := encryptByte_lt key 1 _
  have hE2 : encryptByte key 2 (x >>> 16 &&& 0xFF) < 256 := encryptByte_lt key 2 _
  have hE3 : encryptByte key 3 (x >>> 24 &&& 0xFF) < 256 := encryptByte_lt key 3 _
  have hED : Crypto_EncryptDWORD key x
      = encryptByte key 0 (x &&& 0xFF)
        + encryptByte key 1 (x >>> 8 &&& 0xFF) * 256
        + encryptByte key 2 (x >>> 16 &&& 0xFF) * 65536
        + encryptByte key 3 (x >>> 24 &&& 0xFF) * 16777216 := by
    simp only [Crypto_EncryptDWORD, Crypto_Encrypt, cryptoEncryptFrom,
      List.getD_cons_zero, List.getD_cons_succ]
    exact combine4 hE0 hE1 hE2 hE3
  rw [hED]
  set N := encryptByte key 0 (x &&& 0xFF)
    + encryptByte key 1 (x >>> 8 &&& 0xFF) * 256
    + encryptByte key 2 (x >>> 16 &&& 0xFF) * 65536
    + encryptByte key 3 (x >>> 24 &&& 0xFF) * 16777216 with hNdef
  have c0 : N &&& 0xFF = encryptByte key 0 (x &&& 0xFF) := by
    rw [and_255_eq_mod, hNdef]
    omega
  have c1 : N >>> 8 &&& 0xFF = encryptByte key 1 (x >>> 8 &&& 0xFF) := by
    rw [shr8_eq_div, and_255_eq_mod, hNdef]
    omega
  have c2 : N >>> 16 &&& 0xFF = encryptByte key 2 (x >>> 16 &&& 0xFF) := by
    rw [shr16_eq_div, and_255_eq_mod, hNdef]
    omega
  have c3 : N >>> 24 &&& 0xFF = encryptByte key 3 (x >>> 24 &&& 0xFF) := by
    rw [shr24_eq_div, and_255_eq_mod, hNdef]
    omega
  simp only [Crypto_DecryptDWORD]
  rw [c0, c1, c2, c3]
  have hdec : Crypto_Decrypt key
      [encryptByte key 0 (x &&& 0xFF), encryptByte key 1 (x >>> 8 &&& 0xFF),
       encryptByte key 2 (x >>> 16 &&& 0xFF), encryptByte key 3 (x >>> 24 &&& 0xFF)]
      = [x &&& 0xFF, x >>> 8 &&& 0xFF, x >>> 16 &&& 0xFF, x >>> 24 &&& 0xFF] := by
    have hb : ∀ b ∈ [x &&& 0xFF, x >>> 8 &&& 0xFF, x >>> 16 &&& 0xFF, x >>> 24 &&& 0xFF],
        b < 256 := by
      intro b hbm
      simp only [List.mem_cons, List.not_mem_nil, or_false] at hbm
      rcases hbm with h | h | h | h <;> subst h <;> assumption
    exact cryptoDecryptFrom_encryptFrom key hkey _ 0 hb
  rw [hdec]
  simp only [List.getD_cons_zero, List.getD_cons_succ]
  rw [combine4 hB0 hB1 hB2 hB3]
  rw [and_255_eq_mod, and_255_eq_mod, and_255_eq_mod, and_255_eq_mod,
    shr8_eq_div, shr16_eq_div, shr24_eq_div]
  omega

/-- C1: for every byte sequence of nonzero length and any 16-byte key,
    Crypto_Decrypt inverts Crypto_Encrypt byte for byte, and
    Crypto_DecryptDWORD inverts Crypto_EncryptDWORD on every 32-bit value. -/
theorem C1_crypto_roundtrip (key data : List Nat) (x : Nat)
    (hkey : ∀ k ∈ key, k < 256) (hdata : ∀ b ∈ data, b < 256)
    (hne : data ≠ []) (hx : x < 2 ^ 32) :
    Crypto_Decrypt key (Crypto_Encrypt key data) = data ∧
    Crypto_DecryptDWORD key (Crypto_EncryptDWORD key x) = x :=
  ⟨cryptoDecryptFrom_encryptFrom key hkey data 0 hdata,
   decryptDWORD_encryptDWORD key x hkey hx⟩

/-- Witness for C1 at the default key, the data [1, 255, 122] and the DWORD 0xDEADBEEF. -/
theorem C1_crypto_roundtrip_witness :
    Crypto_Decrypt g_DefaultKey (Crypto_Encrypt g_DefaultKey [1, 255, 122]) = [1, 255, 122] ∧
    Crypto_DecryptDWORD g_DefaultKey (Crypto_EncryptDWORD g_DefaultKey 0xDEADBEEF)
      = 0xDEADBEEF :=
  C1_crypto_roundtrip g_DefaultKey [1, 255, 122] 0xDEADBEEF
    (by decide) (by decide) (by decide) (by norm_num)

/- ========== Frame checksum (src/common/common.h) and receive (src/network.c) ========== -/

/-- One step of the CalculateChecksum loop (common.h lines 242-250):
    checksum = ((checksum << 5) + checksum) + data[i] in DWORD arithmetic. -/
def checksumStep (h b : Nat) : Nat :=
  (((h <<< 5) % 4294967296 + h) % 4294967296 + b) % 4294967296

/-- CalculateChecksum (common.h lines 242-250): left fold of checksumStep, seed 0. -/
def CalculateChecksum (data : List Nat) : Nat :=
  data.foldl checksumStep 0

/-- RD2K error codes (common.h lines 104-118). -/
def RD2K_SUCCESS : Int := 0

def RD2K_ERR_RECV : Int := -4

def RD2K_ERR_PROTOCOL : Int := -7

/-- Peer frame header RD2K_HEADER (common.h lines 127-133). -/
structure RD2K_HEADER where
  msgType : Nat
  flags : Nat
  reserved : Nat
  dataLength : Nat
  checksum : Nat
deriving DecidableEq

/-- Validation logic of Network_RecvPacket (src/network.c lines 395-416), applied
    to a header and a payload that the exact-reads delivered in full
    (data is the received payload, of length dataLength). -/
def Network_RecvPacket (hdr : RD2K_HEADER) (data : List Nat) (maxDataLength : Nat) : Int :=
  if hdr.dataLength > 0 then
    if hdr.dataLength > maxDataLength then RD2K_ERR_PROTOCOL
    else if CalculateChecksum data ≠ hdr.checksum then RD2K_ERR_PROTOCOL
    else RD2K_SUCCESS
  else RD2K_SUCCESS

/-- C3 counterexample: a frame with payloadLength 0 and stored checksum 1 has a
    stored checksum different from the recurrence over its (empty) received
    payload, yet Network_RecvPacket accepts it instead of returning the
    protocol error the claim requires. -/
theorem C3_counterexample :
    CalculateChecksum [] ≠ 1 ∧
    Network_RecvPacket ⟨6, 0, 0, 0, 1⟩ [] 4194304 = RD2K_SUCCESS := by
  constructor
  · decide
  · rfl

/-- C3 (amended): the checksum is the fold of h = ((h<<5)+h)+byte with seed 0
    (0 on the empty payload); on receive, an oversize payloadLength yields the
    protocol error, a nonempty payload whose stored checksum differs from the
    recurrence yields the protocol error, and a frame is accepted iff its
    payload is empty, or fits the buffer and its checksum matches.  (The code
    skips the checksum comparison entirely when payloadLength is 0.) -/
theorem C3_checksum_recv (hdr : RD2K_HEADER) (data : List Nat) (maxLen b : Nat)
    (hlen : data.length = hdr.dataLength) :
    CalculateChecksum [] = 0 ∧
    CalculateChecksum (data ++ [b]) = checksumStep (CalculateChecksum data) b ∧
    (hdr.dataLength > maxLen → Network_RecvPacket hdr data maxLen = RD2K_ERR_PROTOCOL) ∧
    (0 < hdr.dataLength → hdr.dataLength ≤ maxLen →
      CalculateChecksum data ≠ hdr.checksum →
      Network_RecvPacket hdr data maxLen = RD2K_ERR_PROTOCOL) ∧
    (Network_RecvPacket hdr data maxLen = RD2K_SUCCESS ↔
      (hdr.dataLength = 0 ∨
        (hdr.dataLength ≤ maxLen ∧ CalculateChecksum data = hdr.checksum))) := by
  refine ⟨rfl, ?_, ?_, ?_, ?_⟩
  · simp [CalculateChecksum, List.foldl_append]
  · intro hgt
    have h0 : 0 < hdr.dataLength := by omega
    simp only [Network_RecvPacket, if_pos h0, if_pos hgt]
  · intro h0 hle hne
    have hng : ¬ hdr.dataLength > maxLen := by omega
    simp only [Network_RecvPacket, if_pos h0, if_neg hng, if_pos hne]
  · constructor
    · intro hs
      by_cases h0 : hdr.dataLength > 0
      · by_cases hgt : hdr.dataLength > maxLen
        · simp only [Network_RecvPacket, if_pos h0, if_pos hgt] at hs
          exact absurd hs (by simp [RD2K_ERR_PROTOCOL, RD2K_SUCCESS])
        · by_cases hne : CalculateChecksum data ≠ hdr.checksum
          · simp only [Network_RecvPacket, if_pos h0, if_neg hgt, if_pos hne] at hs
            exact absurd hs (by simp [RD2K_ERR_PROTOCOL, RD2K_SUCCESS])
          · right
            constructor
            · omega
            · simpa using hne
      · left
        omega
    · intro hcase
      rcases hcase with h0 | ⟨hle, hck⟩
      · simp [Network_RecvPacket, h0]
      · by_cases h0 : hdr.dataLength > 0
        · have hng : ¬ hdr.dataLength > maxLen := by omega
          have hnn : ¬ CalculateChecksum data ≠ hdr.checksum := by simp [hck]
          simp only [Network_RecvPacket, if_pos h0, if_neg hng, if_neg hnn]
        · simp [Network_RecvPacket, h0]

/-- Witness for C3_checksum_recv: a concrete well-formed one-byte frame. -/
theorem C3_checksum_recv_witness :
    ([7] : List Nat).length = (RD2K_HEADER.mk 1 0 0 1 7).dataLength ∧
    (Network_RecvPacket ⟨1, 0, 0, 1, 7⟩ [7] 4194304 = RD2K_SUCCESS ↔
      ((RD2K_HEADER.mk 1 0 0 1 7).dataLength = 0 ∨
        ((RD2K_HEADER.mk 1 0 0 1 7).dataLength ≤ 4194304 ∧
          CalculateChecksum [7] = (RD2K_HEADER.mk 1 0 0 1 7).checksum))) :=
  ⟨rfl, (C3_checksum_recv ⟨1, 0, 0, 1, 7⟩ [7] 4194304 0 rfl).2.2.2.2⟩

/- ===================== RLE codec (src/screen.c) ===================== -/

/-- DWORD wrap-around subtraction, for the C expression dstMaxSize - 3 on DWORDs. -/
def wsub (a b : Nat) : Nat :=
  (a + 4294967296 - b % 4294967296) % 4294967296

/-- Run-length scan of the CompressRLE inner while loop (screen.c lines 118-121):
    starting from runLength = r, extend while the next byte equals currentByte
    and runLength < 255. -/
def runLenAux (v : Nat) : List Nat → Nat → Nat
  | [], r => r
  | b :: rest, r => if r < 255 ∧ b = v then runLenAux v rest (r + 1) else r

/-- CompressRLE main loop (screen.c lines 110-137).  src is the unread part of
    the source, dstPos the bytes already written, dstMax the dstMaxSize
    argument; the result is the remaining output bytes.  The fuel argument
    only cuts the one corner where the C loop would not terminate
    (dstMaxSize < 3 with a full destination); it is never exhausted when the
    destination buffer is large enough. -/
def compressRLEFuel : Nat → List Nat → Nat → Nat → List Nat
  | 0, _, _, _ => []
  | _ + 1, [], _, _ => []
  | fuel + 1, c :: rest, dstPos, dstMax =>
    if dstPos < wsub dstMax 3 then
      let r := runLenAux c rest 1
      if 3 ≤ r ∨ c = 255 then
        if dstPos + 3 > dstMax then []
        else 255 :: r :: c :: compressRLEFuel fuel (List.drop r (c :: rest)) (dstPos + 3) dstMax
      else
        let w := min r (dstMax - dstPos)
        List.take w (c :: rest) ++ compressRLEFuel fuel (List.drop w (c :: rest)) (dstPos + w) dstMax
    else []

/-- CompressRLE (screen.c lines 110-137): compress src into a destination of
    capacity dstMax, returning the bytes written. -/
def CompressRLE (src : List Nat) (dstMax : Nat) : List Nat :=
  compressRLEFuel (src.length + 1) src 0 dstMax

/-- DecompressRLE main loop (screen.c lines 139-158).  src is the unread part
    of the compressed input, dstPos the bytes already written, dstMax the
    dstMaxSize argument. -/
def decompressRLEAux : List Nat → Nat → Nat → List Nat
  | [], _, _ => []
  | b :: rest, dstPos, dstMax =>
    if dstPos < dstMax then
      if b = 255 ∧ 2 ≤ rest.length then
        match rest with
        | count :: value :: rest2 =>
          let w := min count (dstMax - dstPos)
          List.replicate w value ++ decompressRLEAux rest2 (dstPos + w) dstMax
        | _ => []
      else b :: decompressRLEAux rest (dstPos + 1) dstMax
    else []

/-- DecompressRLE (screen.c lines 139-158). -/
def DecompressRLE (src : List Nat) (dstMax : Nat) : List Nat :=
  decompressRLEAux src 0 dstMax

lemma wsub_3_eq {a : Nat} (h3 : 3 ≤ a) (hlt : a < 4294967296) : wsub a 3 = a - 3 := by
  unfold wsub
  have h1 : a + 4294967296 - 3 % 4294967296 = (a - 3) + 4294967296 := by omega
  rw [h1, Nat.add_mod_right, Nat.mod_eq_of_lt (by omega)]

lemma runLenAux_ge (v : Nat) : ∀ (l : List Nat) (r : Nat), r ≤ runLenAux v l r := by
  intro l
  induction l with
  | nil => intro r; simp [runLenAux]
  | cons b rest ih =>
    intro r
    simp only [runLenAux]
    by_cases h : r < 255 ∧ b = v
    · rw [if_pos h]
      exact le_trans (by omega) (ih (r + 1))
    · rw [if_neg h]

lemma runLenAux_le_len (v : Nat) : ∀ (l : List Nat) (r : Nat),
    runLenAux v l r ≤ r + l.length := by
  intro l
  induction l with
  | nil => intro r; simp [runLenAux]
  | cons b rest ih =>
    intro r
    simp only [runLenAux, List.length_cons]
    by_cases h : r < 255 ∧ b = v
    · rw [if_pos h]
      have := ih (r + 1)
      omega
    · rw [if_neg h]
      omega

lemma runLenAux_prefix (v : Nat) : ∀ (l : List Nat) (r : Nat),
    List.take (runLenAux v l r - r) l = List.replicate (runLenAux v l r - r) v := by
  intro l
  induction l with
  | nil => intro r; simp [runLenAux]
  | cons b rest ih =>
    intro r
    simp only [runLenAux]
    by_cases h : r < 255 ∧ b = v
    · rw [if_pos h]
      have hge : r + 1 ≤ runLenAux v rest (r + 1) := runLenAux_ge v rest (r + 1)
      have hk : runLenAux v rest (r + 1) - r = (runLenAux v rest (r + 1) - (r + 1)) + 1 := by
        omega
      rw [hk, List.take_succ_cons, List.replicate_succ, ih (r + 1), h.2]
    · rw [if_neg h]
      simp

/-- Helper for the round-trip proof: CompressRLE with an unbounded destination. -/
def compressIdeal : List Nat → List Nat
  | [] => []
  | c :: rest =>
    if 3 ≤ runLenAux c rest 1 ∨ c = 255 then
      255 :: runLenAux c rest 1 :: c ::
        compressIdeal (List.drop (runLenAux c rest 1) (c :: rest))
    else
      List.take (runLenAux c rest 1) (c :: rest) ++
        compressIdeal (List.drop (runLenAux c rest 1) (c :: rest))
termination_by l => l.length
decreasing_by
  all_goals
    simp only [List.length_drop, List.length_cons]
    have h1 : 1 ≤ runLenAux c rest 1 := runLenAux_ge c rest 1
    omega

/-- Helper for the round-trip proof: DecompressRLE with an unbounded destination. -/
def decompressIdeal : List Nat → List Nat
  | [] => []
  | b :: rest =>
    if b = 255 ∧ 2 ≤ rest.length then
      match rest with
      | count :: value :: rest2 => List.replicate count value ++ decompressIdeal rest2
      | _ => []
    else b :: decompressIdeal rest

lemma take_head_run (c : Nat) (rest : List Nat) :
    List.take (runLenAux c rest 1) (c :: rest)
      = List.replicate (runLenAux c rest 1) c := by
  have hge : 1 ≤ runLenAux c rest 1 := runLenAux_ge c rest 1
  have hk : runLenAux c rest 1 = (runLenAux c rest 1 - 1) + 1 := by omega
  have hpre := runLenAux_prefix c rest 1
  calc List.take (runLenAux c rest 1) (c :: rest)
      = List.take ((runLenAux c rest 1 - 1) + 1) (c :: rest) := by rw [← hk]
    _ = c :: List.take (runLenAux c rest 1 - 1) rest := List.take_succ_cons
    _ = c :: List.replicate (runLenAux c rest 1 - 1) c := by rw [hpre]
    _ = List.replicate ((runLenAux c rest 1 - 1) + 1) c := by rw [List.replicate_succ]
    _ = List.replicate (runLenAux c rest 1) c := by rw [← hk]

lemma compressRLEFuel_spec : ∀ (fuel : Nat) (src : List Nat) (dstPos dstMax : Nat),
    src.length < fuel → dstPos + 3 * src.length + 4 ≤ dstMax → dstMax < 4294967296 →
    compressRLEFuel fuel src dstPos dstMax = compressIdeal src := by
  intro fuel
  induction fuel with
  | zero => intro src _ _ h _ _; omega
  | succ fuel ih =>
    intro src dstPos dstMax hfuel hroom hlt
    match src with
    | [] => simp [compressRLEFuel, compressIdeal]
    | c :: rest =>
      have hlen : (c :: rest).length = rest.length + 1 := by simp
      have hguard : dstPos < wsub dstMax 3 := by
        rw [wsub_3_eq (by omega) hlt]
        omega
      have hr1 : 1 ≤ runLenAux c rest 1 := runLenAux_ge c rest 1
      have hrlen : runLenAux c rest 1 ≤ 1 + rest.length := runLenAux_le_len c rest 1
      have hdl : (List.drop (runLenAux c rest 1) (c :: rest)).length
          = (rest.length + 1) - runLenAux c rest 1 := by
        simp [List.length_drop]
      simp only [compressRLEFuel, if_pos hguard]
      by_cases hrun : 3 ≤ runLenAux c rest 1 ∨ c = 255
      · rw [if_pos hrun]
        have hnb : ¬ dstPos + 3 > dstMax := by omega
        rw [if_neg hnb]
        have hrec := ih (List.drop (runLenAux c rest 1) (c :: rest)) (dstPos + 3) dstMax
          (by omega) (by omega) hlt
        rw [hrec]
        rw [compressIdeal, if_pos hrun]
      · rw [if_neg hrun]
        have hwmin : min (runLenAux c rest 1) (dstMax - dstPos) = runLenAux c rest 1 := by
          apply min_eq_left
          omega
        rw [hwmin]
        have hrec := ih (List.drop (runLenAux c rest 1) (c :: rest))
          (dstPos + runLenAux c rest 1) dstMax
          (by omega) (by omega) hlt
        rw [hrec]
        rw [compressIdeal, if_neg hrun]

lemma decompressRLEAux_stop (b : Nat) (rest : List Nat) (dstPos dstMax : Nat)
    (hg : ¬ dstPos < dstMax) : decompressRLEAux (b :: rest) dstPos dstMax = [] := by
  cases rest with
  | nil => simp only [decompressRLEAux]; rw [if_neg hg]
  | cons x rest1 =>
    cases rest1 with
    | nil => simp only [decompressRLEAux]; rw [if_neg hg]
    | cons y rest2 => simp only [decompressRLEAux]; rw [if_neg hg]

lemma decompressRLEAux_lit (b : Nat) (rest : List Nat) (dstPos dstMax : Nat)
    (hg : dstPos < dstMax) (hb : ¬ (b = 255 ∧ 2 ≤ rest.length)) :
    decompressRLEAux (b :: rest) dstPos dstMax
      = b :: decompressRLEAux rest (dstPos + 1) dstMax := by
  cases rest with
  | nil => simp only [decompressRLEAux]; rw [if_pos hg, if_neg hb]
  | cons x rest1 =>
    cases rest1 with
    | nil => simp only [decompressRLEAux]; rw [if_pos hg, if_neg hb]
    | cons y rest2 => simp only [decompressRLEAux]; rw [if_pos hg, if_neg hb]

lemma decompressRLEAux_run (count value : Nat) (rest2 : List Nat) (dstPos dstMax : Nat)
    (hg : dstPos < dstMax) :
    decompressRLEAux (255 :: count :: value :: rest2) dstPos dstMax
      = List.replicate (min count (dstMax - dstPos)) value
        ++ decompressRLEAux rest2 (dstPos + min count (dstMax - dstPos)) dstMax := by
  simp only [decompressRLEAux]
  rw [if_pos hg, if_pos (by simp)]

lemma decompressIdeal_lit (b : Nat) (rest : List Nat)
    (hb : ¬ (b = 255 ∧ 2 ≤ rest.length)) :
    decompressIdeal (b :: rest) = b :: decompressIdeal rest := by
  cases rest with
  | nil => simp only [decompressIdeal]; rw [if_neg hb]
  | cons x rest1 =>
    cases rest1 with
    | nil => simp only [decompressIdeal]; rw [if_neg hb]
    | cons y rest2 => simp only [decompressIdeal]; rw [if_neg hb]

lemma decompressIdeal_runEq (count value : Nat) (rest2 : List Nat) :
    decompressIdeal (255 :: count :: value :: rest2)
      = List.replicate count value ++ decompressIdeal rest2 := by
  simp only [decompressIdeal]
  rw [if_pos (by simp)]

lemma decompressRLEAux_spec : ∀ (n : Nat) (src : List Nat), src.length ≤ n →
    ∀ (dstPos dstMax : Nat), dstPos + (decompressIdeal src).length ≤ dstMax →
    decompressRLEAux src dstPos dstMax = decompressIdeal src := by
  intro n
  induction n with
  | zero =>
    intro src hsrc dstPos dstMax _
    have : src = [] := List.length_eq_zero.mp (by omega)
    subst this
    rfl
  | succ n ih =>
    intro src hsrc dstPos dstMax hroom
    match src with
    | [] => rfl
    | b :: rest =>
      by_cases hg : dstPos < dstMax
      · by_cases hb : b = 255 ∧ 2 ≤ rest.length
        · cases rest with
          | nil => simp at hb
          | cons count rest1 =>
            cases rest1 with
            | nil => simp at hb
            | cons value rest2 =>
              obtain ⟨hb255, _⟩ := hb
              subst hb255
              rw [decompressIdeal_runEq] at hroom ⊢
              rw [decompressRLEAux_run count value rest2 dstPos dstMax hg]
              simp only [List.length_append, List.length_replicate] at hroom
              have hw : min count (dstMax - dstPos) = count := by
                apply min_eq_left
                omega
              rw [hw]
              have hlsrc : (255 :: count :: value :: rest2).length = rest2.length + 3 := by
                simp
              have hrec := ih rest2 (by simp at hsrc; omega) (dstPos + count) dstMax (by omega)
              rw [hrec]
        · rw [decompressRLEAux_lit b rest dstPos dstMax hg hb,
            decompressIdeal_lit b rest hb]
          rw [decompressIdeal_lit b rest hb] at hroom
          simp only [List.length_cons] at hroom
          have hrec := ih rest (by simp at hsrc; omega) (dstPos + 1) dstMax (by omega)
          rw [hrec]
      · rw [decompressRLEAux_stop b rest dstPos dstMax hg]
        have hzero : (decompressIdeal (b :: rest)).length = 0 := by omega
        have h0 := List.length_eq_zero.mp hzero
        rw [h0]

lemma decompressIdeal_replicate (c : Nat) (hc : c ≠ 255) :
    ∀ (k : Nat) (T : List Nat),
      decompressIdeal (List.replicate k c ++ T) = List.replicate k c ++ decompressIdeal T := by
  intro k
  induction k with
  | zero => intro T; simp
  | succ k ih =>
    intro T
    rw [List.replicate_succ, List.cons_append]
    have hcond : ¬ (c = 255 ∧ 2 ≤ (List.replicate k c ++ T).length) := by
      intro h
      exact hc h.1
    rw [decompressIdeal_lit c _ hcond, ih T]
    simp [List.replicate_succ]

lemma decompressIdeal_compressIdeal : ∀ (n : Nat) (src : List Nat), src.length ≤ n →
    decompressIdeal (compressIdeal src) = src := by
  intro n
  induction n with
  | zero =>
    intro src hsrc
    have : src = [] := List.length_eq_zero.mp (by omega)
    subst this
    simp [compressIdeal, decompressIdeal]
  | succ n ih =>
    intro src hsrc
    match src with
    | [] => simp [compressIdeal, decompressIdeal]
    | c :: rest =>
      have hr1 : 1 ≤ runLenAux c rest 1 := runLenAux_ge c rest 1
      have hdroplen : (List.drop (runLenAux c rest 1) (c :: rest)).length ≤ n := by
        simp only [List.length_drop, List.length_cons]
        simp only [List.length_cons] at hsrc
        omega
      have hIH := ih _ hdroplen
      by_cases hrun : 3 ≤ runLenAux c rest 1 ∨ c = 255
      · rw [compressIdeal, if_pos hrun]
        rw [decompressIdeal_runEq, hIH, ← take_head_run c rest, List.take_append_drop]
      · rw [compressIdeal, if_neg hrun]
        have hc : c ≠ 255 := by
          intro h
          exact hrun (Or.inr h)
        rw [take_head_run c rest]
        rw [decompressIdeal_replicate c hc _ _, hIH, ← take_head_run c rest,
          List.take_append_drop]

/-- C4: RLE round trip.  For every byte sequence of length at most 16 MiB,
    decompressing the compression (with output buffers large enough: 3n+4 for
    the compressor, n for the decompressor) restores every byte.  In
    particular a literal 0xFF survives, since CompressRLE emits 0xFF only as
    the run 0xFF,count,0xFF. -/
theorem C4_rle_roundtrip (src : List Nat) (hbytes : ∀ b ∈ src, b < 256)
    (hlen : src.length ≤ 16777216) :
    DecompressRLE (CompressRLE src (3 * src.length + 4)) src.length = src := by
  have hcomp : CompressRLE src (3 * src.length + 4) = compressIdeal src := by
    apply compressRLEFuel_spec (src.length + 1) src 0 (3 * src.length + 4)
    · omega
    · omega
    · omega
  rw [hcomp]
  have hrt : decompressIdeal (compressIdeal src) = src :=
    decompressIdeal_compressIdeal src.length src (le_refl _)
  have hspec : decompressRLEAux (compressIdeal src) 0 src.length
      = decompressIdeal (compressIdeal src) := by
    apply decompressRLEAux_spec (compressIdeal src).length _ (le_refl _)
    rw [hrt]
    omega
  rw [DecompressRLE, hspec, hrt]

/-- Witness for C4: a sequence containing a literal 0xFF and a run of four 7s. -/
theorem C4_rle_roundtrip_witness :
    DecompressRLE (CompressRLE [1, 255, 2, 7, 7, 7, 7] 25) 7 = [1, 255, 2, 7, 7, 7, 7] :=
  C4_rle_roundtrip [1, 255, 2, 7, 7, 7, 7] (by decide) (by decide)

/- ========== Host handshake check (src/client/remotedesk2k.c lines 1969-2014) ========== -/

/-- Protocol magic RD2K_MAGIC (common.h line 234). -/
def RD2K_MAGIC : Nat := 0x4B324452

/-- Compression constant COMPRESS_RLE (common.h line 90). -/
def COMPRESS_RLE : Nat := 0x01

/-- Handshake message RD2K_HANDSHAKE (common.h lines 136-146). -/
structure RD2K_HANDSHAKE where
  magic : Nat
  yourId : Nat
  password : Nat
  screenWidth : Nat
  screenHeight : Nat
  colorDepth : Nat
  compression : Nat
  versionMajor : Nat
  versionMinor : Nat
deriving DecidableEq

/-- The C cast (int)dword: reinterpret a 32-bit value as a signed int. -/
def toInt32 (x : Nat) : Int :=
  if x % 4294967296 < 2147483648 then (x % 4294967296 : Int)
  else (x % 4294967296 : Int) - 4294967296

/-- Host reaction to an incoming MSG_HANDSHAKE. -/
inductive HostAction where
  | sendAck (ack : RD2K_HANDSHAKE)
  | closeConnection
deriving DecidableEq

/-- Password check of the MSG_HANDSHAKE branch (remotedesk2k.c lines 1974-1980):
    authOk iff magic matches and the password equals the host's active
    password (atoi(g_customPassword) compared to (int)password when a custom
    password is configured, else the random g_myPassword). -/
def handshakeAuthOk (useCustomPassword : Bool) (customPasswordValue : Int)
    (myPassword : Nat) (hs : RD2K_HANDSHAKE) : Bool :=
  if hs.magic = RD2K_MAGIC then
    if useCustomPassword then customPasswordValue == toInt32 hs.password
    else hs.password == myPassword
  else false

/-- MSG_HANDSHAKE handling (remotedesk2k.c lines 1969-2014): on authOk the
    host answers MSG_HANDSHAKE_ACK with password 0 and its own screen data;
    otherwise it disconnects and sends nothing. -/
def ProcessServerHandshake (useCustomPassword : Bool) (customPasswordValue : Int)
    (myPassword myId screenW screenH : Nat) (hs : RD2K_HANDSHAKE) : HostAction :=
  if handshakeAuthOk useCustomPassword customPasswordValue myPassword hs then
    HostAction.sendAck
      { magic := RD2K_MAGIC, yourId := myId, password := 0,
        screenWidth := screenW, screenHeight := screenH, colorDepth := 24,
        compression := COMPRESS_RLE, versionMajor := 1, versionMinor := 0 }
  else
    HostAction.closeConnection

lemma handshakeAuthOk_iff (u : Bool) (cv : Int) (mp : Nat) (hs : RD2K_HANDSHAKE) :
    handshakeAuthOk u cv mp hs = true ↔
      (hs.magic = RD2K_MAGIC ∧
        ((u = true ∧ cv = toInt32 hs.password) ∨ (u = false ∧ hs.password = mp))) := by
  rw [handshakeAuthOk]
  by_cases hm : hs.magic = RD2K_MAGIC
  · rw [if_pos hm]
    cases u
    · simp [hm]
    · simp [hm]
  · rw [if_neg hm]
    simp [hm]

/-- C7: a MSG_HANDSHAKE whose password differs from the host's active
    password (custom password as numeric value when configured, else the
    random one) makes the host close the connection without sending
    MSG_HANDSHAKE_ACK; with matching magic and password the host replies
    with an ack whose password field is zero. -/
theorem C7_handshake_auth (useCustom : Bool) (customVal : Int)
    (myPassword myId w h : Nat) (hs : RD2K_HANDSHAKE) :
    ((useCustom = true → customVal ≠ toInt32 hs.password) →
     (useCustom = false → hs.password ≠ myPassword) →
      ProcessServerHandshake useCustom customVal myPassword myId w h hs
        = HostAction.closeConnection) ∧
    (hs.magic = RD2K_MAGIC →
     (useCustom = true → customVal = toInt32 hs.password) →
     (useCustom = false → hs.password = myPassword) →
      ProcessServerHandshake useCustom customVal myPassword myId w h hs
        = HostAction.sendAck
            { magic := RD2K_MAGIC, yourId := myId, password := 0,
              screenWidth := w, screenHeight := h, colorDepth := 24,
              compression := COMPRESS_RLE, versionMajor := 1, versionMinor := 0 }) := by
  constructor
  · intro hcust hrand
    have hko : handshakeAuthOk useCustom customVal myPassword hs = false := by
      rw [Bool.eq_false_iff]
      intro htrue
      rcases (handshakeAuthOk_iff useCustom customVal myPassword hs).mp htrue with
        ⟨_, ⟨hu, hpw⟩ | ⟨hu, hpw⟩⟩
      · exact hcust hu hpw
      · exact hrand hu hpw
    rw [ProcessServerHandshake, hko]
    simp
  · intro hm hcust hrand
    have hko : handshakeAuthOk useCustom customVal myPassword hs = true := by
      rw [handshakeAuthOk_iff]
      refine ⟨hm, ?_⟩
      cases useCustom
      · exact Or.inr ⟨rfl, hrand rfl⟩
      · exact Or.inl ⟨rfl, hcust rfl⟩
    rw [ProcessServerHandshake, hko]
    simp

/-- Witness for C7: wrong password 99999 against host password 12345 closes;
    correct password 12345 is acked with password field 0. -/
theorem C7_handshake_auth_witness :
    ProcessServerHandshake false 0 12345 7 640 480
      ⟨RD2K_MAGIC, 7, 99999, 800, 600, 24, 1, 1, 0⟩ = HostAction.closeConnection ∧
    ProcessServerHandshake false 0 12345 7 640 480
      ⟨RD2K_MAGIC, 7, 12345, 800, 600, 24, 1, 1, 0⟩
      = HostAction.sendAck
          { magic := RD2K_MAGIC, yourId := 7, password := 0,
            screenWidth := 640, screenHeight := 480, colorDepth := 24,
            compression := COMPRESS_RLE, versionMajor := 1, versionMinor := 0 } :=
  ⟨(C7_handshake_auth false 0 12345 7 640 480
      ⟨RD2K_MAGIC, 7, 99999, 800, 600, 24, 1, 1, 0⟩).1
      (by intro hb _; exact absurd hb (by decide)) (by intro _; decide),
   (C7_handshake_auth false 0 12345 7 640 480
      ⟨RD2K_MAGIC, 7, 12345, 800, 600, 24, 1, 1, 0⟩).2 rfl
      (by intro hb; exact absurd hb (by decide)) (by intro _; rfl)⟩

/- ========== File transfer (src/client/filetransfer.c) ========== -/

/-- FT_MAX_FILE_SIZE, 100 GiB (filetransfer.h line 35). -/
def FT_MAX_FILE_SIZE : Nat := 100 * 1024 * 1024 * 1024

/-- FT_CHUNK_SIZE, 32 KiB (filetransfer.h line 38). -/
def FT_CHUNK_SIZE : Nat := 32 * 1024

/-- FT result codes (filetransfer.h lines 51-60). -/
def FT_SUCCESS : Nat := 0

def FT_ERR_FILE_TOO_LARGE : Nat := 2

def FT_ERR_READ : Nat := 4

def FT_ERR_NETWORK : Nat := 6

def FT_ERR_BUSY : Nat := 7

def FT_ERR_CREATE_FILE : Nat := 8

/-- Outcome of FileTransfer_StartReceive: the returned FT code and whether a
    file was created on disk. -/
structure StartReceiveOutcome where
  result : Nat
  fileCreated : Bool
deriving DecidableEq

/-- FileTransfer_StartReceive (filetransfer.c lines 805-879), given a full
    MSG_FILE_START header.  fileName is the NUL-terminated name as a byte
    list, fileSize the 64-bit size from the header, busy whether a transfer
    is already in progress, createOk whether CreateFileA succeeds for the
    chosen destination (either attempt).  The filename guard runs before any
    path is built or file created. -/
def FileTransfer_StartReceive (busy : Bool) (fileName : List Nat) (fileSize : Nat)
    (createOk : Bool) : StartReceiveOutcome :=
  if busy then ⟨FT_ERR_BUSY, false⟩
  else if fileName.isEmpty || fileName.contains 92 || fileName.contains 47
      || decide ([46, 46] <:+: fileName) then
    ⟨FT_ERR_NETWORK, false⟩
  else if fileSize > FT_MAX_FILE_SIZE then ⟨FT_ERR_FILE_TOO_LARGE, false⟩
  else if createOk then ⟨FT_SUCCESS, true⟩
  else ⟨FT_ERR_CREATE_FILE, false⟩

/-- C8: an incoming MSG_FILE_START whose filename is empty or contains a
    backslash, a forward slash, or the substring ".." is rejected (with the
    receiver's protocol-violation code FT_ERR_NETWORK, message
    "Invalid filename") and no file is created or written. -/
theorem C8_filename_guard (busy createOk : Bool) (fileName : List Nat) (fileSize : Nat)
    (hbusy : busy = false)
    (hbad : fileName = [] ∨ (92 ∈ fileName) ∨ (47 ∈ fileName)
      ∨ [46, 46] <:+: fileName) :
    FileTransfer_StartReceive busy fileName fileSize createOk
      = ⟨FT_ERR_NETWORK, false⟩ := by
  subst hbusy
  rw [FileTransfer_StartReceive, if_neg (by simp)]
  rw [if_pos]
  rcases hbad with h | h | h | h
  · simp [h]
  · simp [h]
  · simp [h]
  · simp [h]

/-- Witness for C8: the filename "..\evil" (bytes 46 46 92 101 118 105 108)
    is rejected and creates nothing. -/
theorem C8_filename_guard_witness :
    FileTransfer_StartReceive false [46, 46, 92, 101, 118, 105, 108] 1000 true
      = ⟨FT_ERR_NETWORK, false⟩ :=
  C8_filename_guard false true [46, 46, 92, 101, 118, 105, 108] 1000 rfl
    (Or.inr (Or.inr (Or.inr (by decide))))

/-- Result of the file-size gate at send initiation. -/
inductive SendInitResult where
  | errRead
  | errTooLarge
  | accepted (totalChunks : Nat)
deriving DecidableEq

/-- Size checks of FileTransfer_SendFile (filetransfer.c lines 750-774) and
    SendFileThreadProc (lines 519-537): empty files are rejected with
    FT_ERR_READ, files over 100 GiB with FT_ERR_FILE_TOO_LARGE, others are
    accepted with totalChunks = (fileSize + FT_CHUNK_SIZE - 1) / FT_CHUNK_SIZE
    (truncated to DWORD). -/
def sendFileSizeCheck (fileSize : Nat) : SendInitResult :=
  if fileSize = 0 then SendInitResult.errRead
  else if fileSize > FT_MAX_FILE_SIZE then SendInitResult.errTooLarge
  else SendInitResult.accepted
    (((fileSize + FT_CHUNK_SIZE - 1) / FT_CHUNK_SIZE) % 4294967296)

/-- Chunk sizes produced by the send loop of SendFileThreadProc
    (filetransfer.c lines 581-582): chunkSize = min(fileSize - totalSent,
    FT_CHUNK_SIZE) while totalSent < fileSize. -/
def chunkSizesAux (remaining : Nat) : List Nat :=
  if h : remaining = 0 then []
  else
    (if remaining > FT_CHUNK_SIZE then FT_CHUNK_SIZE else remaining) ::
      chunkSizesAux
        (remaining - (if remaining > FT_CHUNK_SIZE then FT_CHUNK_SIZE else remaining))
termination_by remaining
decreasing_by
  split
  · have hc : FT_CHUNK_SIZE = 32768 := by norm_num [FT_CHUNK_SIZE]
    omega
  · omega

/-- Chunk sizes for a whole file. -/
def chunkSizes (fileSize : Nat) : List Nat := chunkSizesAux fileSize

lemma chunkSizesAux_eq (n : Nat) : chunkSizesAux n =
    if n = 0 then []
    else
      (if n > FT_CHUNK_SIZE then FT_CHUNK_SIZE else n) ::
        chunkSizesAux (n - (if n > FT_CHUNK_SIZE then FT_CHUNK_SIZE else n)) := by
  rw [chunkSizesAux]
  split
  · simp_all
  · simp_all

lemma chunkSizesAux_sum : ∀ (bound n : Nat), n ≤ bound → (chunkSizesAux n).sum = n := by
  intro bound
  induction bound with
  | zero =>
    intro n hn
    have h0 : n = 0 := by omega
    subst h0
    rw [chunkSizesAux_eq]
    simp
  | succ b ih =>
    intro n hn
    rw [chunkSizesAux_eq]
    by_cases h : n = 0
    · rw [if_pos h]
      simp [h]
    · rw [if_neg h]
      have hc : FT_CHUNK_SIZE = 32768 := by norm_num [FT_CHUNK_SIZE]
      by_cases hgt : n > FT_CHUNK_SIZE
      · rw [if_pos hgt]
        have hh := ih (n - FT_CHUNK_SIZE) (by omega)
        rw [List.sum_cons, hh]
        omega
      · rw [if_neg hgt]
        have hh := ih (n - n) (by omega)
        rw [List.sum_cons, hh]
        omega

lemma chunkSizesAux_length : ∀ (bound n : Nat), n ≤ bound →
    (chunkSizesAux n).length = (n + FT_CHUNK_SIZE - 1) / FT_CHUNK_SIZE := by
  intro bound
  induction bound with
  | zero =>
    intro n hn
    have hc : FT_CHUNK_SIZE = 32768 := by norm_num [FT_CHUNK_SIZE]
    have h0 : n = 0 := by omega
    subst h0
    rw [chunkSizesAux_eq]
    rw [if_pos rfl, hc]
    rfl
  | succ b ih =>
    intro n hn
    have hc : FT_CHUNK_SIZE = 32768 := by norm_num [FT_CHUNK_SIZE]
    rw [chunkSizesAux_eq]
    by_cases h : n = 0
    · rw [if_pos h, h, hc]
      rfl
    · rw [if_neg h]
      by_cases hgt : n > FT_CHUNK_SIZE
      · rw [if_pos hgt]
        have hh := ih (n - FT_CHUNK_SIZE) (by omega)
        rw [List.length_cons, hh, hc]
        rw [hc] at hgt
        omega
      · rw [if_neg hgt]
        have hh := ih (n - n) (by omega)
        rw [List.length_cons, hh, hc]
        rw [hc] at hgt
        omega

lemma chunkSizesAux_full : ∀ (bound n : Nat), n ≤ bound → ∀ i,
    i + 1 < (chunkSizesAux n).length → (chunkSizesAux n).getD i 0 = FT_CHUNK_SIZE := by
  intro bound
  induction bound with
  | zero =>
    intro n hn i hi
    have h0 : n = 0 := by omega
    subst h0
    rw [chunkSizesAux_eq] at hi
    simp at hi
  | succ b ih =>
    intro n hn i hi
    have hc : FT_CHUNK_SIZE = 32768 := by norm_num [FT_CHUNK_SIZE]
    rw [chunkSizesAux_eq] at hi ⊢
    by_cases h : n = 0
    · rw [if_pos h] at hi
      simp at hi
    · rw [if_neg h] at hi ⊢
      by_cases hgt : n > FT_CHUNK_SIZE
      · rw [if_pos hgt] at hi ⊢
        cases i with
        | zero => rw [List.getD_cons_zero]
        | succ j =>
          rw [List.length_cons] at hi
          rw [List.getD_cons_succ]
          exact ih (n - FT_CHUNK_SIZE) (by omega) j (by omega)
      · rw [if_neg hgt] at hi ⊢
        rw [List.length_cons] at hi
        have hz := chunkSizesAux_length b (n - n) (by omega)
        have hz0 : (chunkSizesAux (n - n)).length = 0 := by
          rw [hz, hc]
          omega
        omega

lemma chunkSizesAux_last : ∀ (bound n : Nat), n ≤ bound → 1 ≤ n →
    1 ≤ (chunkSizesAux n).getD ((chunkSizesAux n).length - 1) 0 ∧
    (chunkSizesAux n).getD ((chunkSizesAux n).length - 1) 0 ≤ FT_CHUNK_SIZE := by
  intro bound
  induction bound with
  | zero =>
    intro n hn h1
    omega
  | succ b ih =>
    intro n hn h1
    have hc : FT_CHUNK_SIZE = 32768 := by norm_num [FT_CHUNK_SIZE]
    rw [chunkSizesAux_eq]
    rw [if_neg (by omega : ¬ n = 0)]
    by_cases hgt : n > FT_CHUNK_SIZE
    · rw [if_pos hgt]
      have hlen := chunkSizesAux_length b (n - FT_CHUNK_SIZE) (by omega)
      have hlpos : 1 ≤ (chunkSizesAux (n - FT_CHUNK_SIZE)).length := by
        rw [hlen, hc]
        rw [hc] at hgt
        omega
      have hrec := ih (n - FT_CHUNK_SIZE) (by omega) (by omega)
      rw [List.length_cons]
      have hidx : (chunkSizesAux (n - FT_CHUNK_SIZE)).length + 1 - 1
          = ((chunkSizesAux (n - FT_CHUNK_SIZE)).length - 1) + 1 := by omega
      rw [hidx, List.getD_cons_succ]
      exact hrec
    · rw [if_neg hgt]
      have hz := chunkSizesAux_length b (n - n) (by omega)
      have hz0 : (chunkSizesAux (n - n)).length = 0 := by
        rw [hz, hc]
        omega
      rw [List.length_cons, hz0]
      have hidx0 : (0 : Nat) + 1 - 1 = 0 := rfl
      rw [hidx0, List.getD_cons_zero]
      omega

/-- C9 counterexample: a file of size 0 is at or below the 100 GiB limit but
    is rejected with FT_ERR_READ ("File is empty") rather than accepted. -/
theorem C9_counterexample :
    sendFileSizeCheck 0 = SendInitResult.errRead ∧ (0 : Nat) ≤ FT_MAX_FILE_SIZE := by
  constructor
  · rfl
  · exact Nat.zero_le _

/-- C9 (amended): at send initiation an empty file is rejected with
    FT_ERR_READ; every file of size 1..100 GiB is accepted with
    totalChunks = ceil(fileSize / 32768) (characterised by
    fileSize ≤ T*32768 < fileSize + 32768); every larger file is rejected
    with the file-too-large error; and the send loop produces exactly
    totalChunks chunks, every one of size exactly 32 KiB except the final
    one, which is between 1 and 32 KiB, summing to fileSize. -/
theorem C9_send_init (fileSize : Nat) :
    (fileSize = 0 → sendFileSizeCheck fileSize = SendInitResult.errRead) ∧
    (FT_MAX_FILE_SIZE < fileSize →
      sendFileSizeCheck fileSize = SendInitResult.errTooLarge) ∧
    (1 ≤ fileSize → fileSize ≤ FT_MAX_FILE_SIZE →
      sendFileSizeCheck fileSize
          = SendInitResult.accepted ((fileSize + FT_CHUNK_SIZE - 1) / FT_CHUNK_SIZE) ∧
      fileSize ≤ ((fileSize + FT_CHUNK_SIZE - 1) / FT_CHUNK_SIZE) * FT_CHUNK_SIZE ∧
      ((fileSize + FT_CHUNK_SIZE - 1) / FT_CHUNK_SIZE) * FT_CHUNK_SIZE
          < fileSize + FT_CHUNK_SIZE ∧
      (chunkSizes fileSize).length = (fileSize + FT_CHUNK_SIZE - 1) / FT_CHUNK_SIZE ∧
      (∀ i, i + 1 < (chunkSizes fileSize).length →
        (chunkSizes fileSize).getD i 0 = FT_CHUNK_SIZE) ∧
      1 ≤ (chunkSizes fileSize).getD ((chunkSizes fileSize).length - 1) 0 ∧
      (chunkSizes fileSize).getD ((chunkSizes fileSize).length - 1) 0 ≤ FT_CHUNK_SIZE ∧
      (chunkSizes fileSize).sum = fileSize) := by
  have hc : FT_CHUNK_SIZE = 32768 := by norm_num [FT_CHUNK_SIZE]
  have hm : FT_MAX_FILE_SIZE = 107374182400 := by norm_num [FT_MAX_FILE_SIZE]
  refine ⟨?_, ?_, ?_⟩
  · intro h0
    rw [sendFileSizeCheck, if_pos h0]
  · intro hbig
    rw [sendFileSizeCheck, if_neg (by omega), if_pos (by omega)]
  · intro h1 hle
    rw [hm] at hle
    have hceil1 : fileSize
        ≤ ((fileSize + FT_CHUNK_SIZE - 1) / FT_CHUNK_SIZE) * FT_CHUNK_SIZE := by
      rw [hc]
      omega
    have hceil2 : ((fileSize + FT_CHUNK_SIZE - 1) / FT_CHUNK_SIZE) * FT_CHUNK_SIZE
        < fileSize + FT_CHUNK_SIZE := by
      rw [hc]
      omega
    refine ⟨?_, hceil1, hceil2, chunkSizesAux_length fileSize fileSize (le_refl _),
      chunkSizesAux_full fileSize fileSize (le_refl _),
      (chunkSizesAux_last fileSize fileSize (le_refl _) h1).1,
      (chunkSizesAux_last fileSize fileSize (le_refl _) h1).2,
      chunkSizesAux_sum fileSize fileSize (le_refl _)⟩
    rw [sendFileSizeCheck, if_neg (by omega), if_neg (by rw [hm]; omega)]
    have hmod : ((fileSize + FT_CHUNK_SIZE - 1) / FT_CHUNK_SIZE) % 4294967296
        = (fileSize + FT_CHUNK_SIZE - 1) / FT_CHUNK_SIZE := by
      apply Nat.mod_eq_of_lt
      rw [hc]
      omega
    rw [hmod]

/-- Witness for C9 at file size 100000 (4 chunks: 32768+32768+32768+1696). -/
theorem C9_send_init_witness :
    (1 ≤ 100000 → (100000 : Nat) ≤ FT_MAX_FILE_SIZE →
      sendFileSizeCheck 100000
          = SendInitResult.accepted ((100000 + FT_CHUNK_SIZE - 1) / FT_CHUNK_SIZE) ∧
      100000 ≤ ((100000 + FT_CHUNK_SIZE - 1) / FT_CHUNK_SIZE) * FT_CHUNK_SIZE ∧
      ((100000 + FT_CHUNK_SIZE - 1) / FT_CHUNK_SIZE) * FT_CHUNK_SIZE
          < 100000 + FT_CHUNK_SIZE ∧
      (chunkSizes 100000).length = (100000 + FT_CHUNK_SIZE - 1) / FT_CHUNK_SIZE ∧
      (∀ i, i + 1 < (chunkSizes 100000).length →
        (chunkSizes 100000).getD i 0 = FT_CHUNK_SIZE) ∧
      1 ≤ (chunkSizes 100000).getD ((chunkSizes 100000).length - 1) 0 ∧
      (chunkSizes 100000).getD ((chunkSizes 100000).length - 1) 0 ≤ FT_CHUNK_SIZE ∧
      (chunkSizes 100000).sum = 100000) :=
  (C9_send_init 100000).2.2

/- ========== Relay server (src/relay/relay.c, src/linux/relay.c) ========== -/

/-- Relay connection states (relay.h lines 75-79). -/
def RELAY_STATE_CONNECTED : Nat := 0

def RELAY_STATE_REGISTERED : Nat := 1

def RELAY_STATE_WAITING : Nat := 2

def RELAY_STATE_PAIRED : Nat := 3

def RELAY_STATE_DISCONNECTED : Nat := 4

/-- Relay message type RELAY_MSG_DATA (relay.h line 25). -/
def RELAY_MSG_DATA : Nat := 0x53

/-- Relay connection record: the fields of RELAY_CONNECTION (relay.h) that the
    registration and forwarding logic reads and writes.  hasPartner models
    pPartner != NULL and partnerSocketValid models
    pPartner->socket != INVALID_SOCKET. -/
structure RELAY_CONNECTION where
  clientId : Nat
  state : Nat
  lastActivity : Nat
  hasPartner : Bool
  partnerSocketValid : Bool
deriving DecidableEq

/-- RELAY_MSG_DATA handling in relay/relay.c lines 482-490: forward a DATA
    frame to the partner socket only when a partner with a valid socket is
    referenced, refresh this connection's lastActivity, return 0 (keep the
    connection).  The first component lists the message types written. -/
def ProcessRelayDataWin (conn : RELAY_CONNECTION) (now : Nat) :
    List Nat × RELAY_CONNECTION × Int :=
  if conn.hasPartner && conn.partnerSocketValid then
    ([RELAY_MSG_DATA], { conn with lastActivity := now }, 0)
  else
    ([], { conn with lastActivity := now }, 0)

/-- RELAY_MSG_DATA handling in linux/relay.c lines 470-480: same as the
    Windows relay, but the partner's lastActivity is also refreshed when a
    frame is forwarded (third component). -/
def ProcessRelayDataLinux (conn : RELAY_CONNECTION) (now : Nat) :
    List Nat × RELAY_CONNECTION × Bool × Int :=
  if conn.hasPartner && conn.partnerSocketValid then
    ([RELAY_MSG_DATA], { conn with lastActivity := now }, true, 0)
  else
    ([], { conn with lastActivity := now }, false, 0)

/-- C10: MSG_DATA from a connection with no partner reference forwards
    nothing and sends no error response; the only state change is the
    refreshed lastActivity, and the handler returns 0 so the connection
    stays open.  Holds in both the Windows and the Linux relay. -/
theorem C10_data_no_partner (conn : RELAY_CONNECTION) (now : Nat)
    (h : conn.hasPartner = false) :
    ProcessRelayDataWin conn now = ([], { conn with lastActivity := now }, 0) ∧
    ProcessRelayDataLinux conn now = ([], { conn with lastActivity := now }, false, 0) := by
  constructor
  · rw [ProcessRelayDataWin, if_neg]
    rw [h]
    simp
  · rw [ProcessRelayDataLinux, if_neg]
    rw [h]
    simp

/-- Witness for C10 at a concrete unpaired registered connection. -/
theorem C10_data_no_partner_witness :
    ProcessRelayDataWin ⟨9, RELAY_STATE_REGISTERED, 500, false, false⟩ 777
      = ([], ⟨9, RELAY_STATE_REGISTERED, 777, false, false⟩, 0) ∧
    ProcessRelayDataLinux ⟨9, RELAY_STATE_REGISTERED, 500, false, false⟩ 777
      = ([], ⟨9, RELAY_STATE_REGISTERED, 777, false, false⟩, false, 0) :=
  C10_data_no_partner ⟨9, RELAY_STATE_REGISTERED, 500, false, false⟩ 777 rfl

/-- One slot of the RemoveStaleConnections scan (relay/relay.c lines 201-251):
    a same-id connection other than the registrant is protected when PAIRED,
    protected when REGISTERED with idleTime = now - lastActivity (DWORD
    subtraction) under 5000 ms, and otherwise closed and its slot freed.
    The Bool is the slot's contribution to bIdAvailable. -/
def slotAction (clientId excludeIdx now i : Nat) (slot : Option RELAY_CONNECTION) :
    Bool × Option RELAY_CONNECTION :=
  match slot with
  | none => (true, none)
  | some c =>
    if i ≠ excludeIdx ∧ c.clientId = clientId then
      if c.state = RELAY_STATE_PAIRED then (false, some c)
      else if c.state = RELAY_STATE_REGISTERED ∧ wsub now c.lastActivity < 5000 then
        (false, some c)
      else (true, none)
    else (true, some c)

/-- RemoveStaleConnections (relay/relay.c lines 186-257) over the slot array
    from internal index i; returns bIdAvailable and the updated array. -/
def RemoveStaleConnections (clientId excludeIdx now : Nat) :
    Nat → List (Option RELAY_CONNECTION) → Bool × List (Option RELAY_CONNECTION)
  | _, [] => (true, [])
  | i, slot :: rest =>
    let hd := slotAction clientId excludeIdx now i slot
    let tl := RemoveStaleConnections clientId excludeIdx now (i + 1) rest
    (hd.1 && tl.1, hd.2 :: tl.2)

/-- Registration response status (REGISTER_RESPONSE.status values
    RELAY_REGISTER_OK / RELAY_REGISTER_DUPLICATE). -/
inductive RegStatus where
  | ok
  | duplicate
deriving DecidableEq

/-- Replace the registrant's slot in place (pConn is table[connIdx]). -/
def modifySlot (f : RELAY_CONNECTION → RELAY_CONNECTION) :
    Nat → List (Option RELAY_CONNECTION) → List (Option RELAY_CONNECTION)
  | _, [] => []
  | 0, slot :: rest => slot.map f :: rest
  | i + 1, slot :: rest => slot :: modifySlot f i rest

/-- RELAY_MSG_REGISTER handling (relay/relay.c lines 390-430): run
    RemoveStaleConnections; if the id is unavailable reply DUPLICATE and close
    the registrant (return -1); else store the id on the registrant, move it
    to REGISTERED, stamp lastActivity, and reply OK.  The middle component is
    whether the registrant's connection is closed. -/
def ProcessRelayRegister (clientId connIdx now : Nat)
    (table : List (Option RELAY_CONNECTION)) :
    RegStatus × Bool × List (Option RELAY_CONNECTION) :=
  let r := RemoveStaleConnections clientId connIdx now 0 table
  if r.1 then
    (RegStatus.ok, false,
      modifySlot
        (fun c =>
          { c with
            clientId := clientId
            state := RELAY_STATE_REGISTERED
            lastActivity := now }) connIdx r.2)
  else
    (RegStatus.duplicate, true, r.2)

/-- A holder of the id that the duplicate policy protects: Paired, or
    Registered with last activity within 5 seconds. -/
def protectedHolder (now clientId : Nat) (c : RELAY_CONNECTION) : Prop :=
  c.clientId = clientId ∧
    (c.state = RELAY_STATE_PAIRED ∨
      (c.state = RELAY_STATE_REGISTERED ∧ wsub now c.lastActivity < 5000))

lemma removeStale_snd : ∀ (table : List (Option RELAY_CONNECTION)) (i j : Nat)
    (clientId excludeIdx now : Nat),
    (RemoveStaleConnections clientId excludeIdx now i table).2[j]?
      = (table[j]?).map (fun slot => (slotAction clientId excludeIdx now (i + j) slot).2) := by
  intro table
  induction table with
  | nil => intro i j _ _ _; simp [RemoveStaleConnections]
  | cons slot rest ih =>
    intro i j clientId excludeIdx now
    match j with
    | 0 => simp [RemoveStaleConnections]
    | j + 1 =>
      simp only [RemoveStaleConnections, List.getElem?_cons_succ]
      rw [ih (i + 1) j]
      have harith : i + 1 + j = i + (j + 1) := by omega
      rw [harith]

lemma removeStale_fst_false : ∀ (table : List (Option RELAY_CONNECTION)) (i j : Nat)
    (clientId excludeIdx now : Nat) (c : RELAY_CONNECTION),
    table[j]? = some (some c) → i + j ≠ excludeIdx → protectedHolder now clientId c →
    (RemoveStaleConnections clientId excludeIdx now i table).1 = false := by
  intro table
  induction table with
  | nil => intro i j _ _ _ c hj _ _; simp at hj
  | cons slot rest ih =>
    intro i j clientId excludeIdx now c hj hne hprot
    match j with
    | 0 =>
      simp only [List.getElem?_cons_zero, Option.some_inj] at hj
      subst hj
      simp only [RemoveStaleConnections]
      have hcond : i ≠ excludeIdx ∧ c.clientId = clientId := by
        refine ⟨by omega, hprot.1⟩
      rw [slotAction, if_pos hcond]
      rcases hprot.2 with hp | hp
      · rw [if_pos hp]
        simp
      · by_cases hpair : c.state = RELAY_STATE_PAIRED
        · rw [if_pos hpair]
          simp
        · rw [if_neg hpair, if_pos hp]
          simp
    | j + 1 =>
      simp only [List.getElem?_cons_succ] at hj
      simp only [RemoveStaleConnections]
      have := ih (i + 1) j clientId excludeIdx now c hj (by omega) hprot
      rw [this]
      simp

lemma removeStale_fst_true : ∀ (table : List (Option RELAY_CONNECTION)) (i : Nat)
    (clientId excludeIdx now : Nat),
    (∀ j c, table[j]? = some (some c) → i + j ≠ excludeIdx →
      ¬ protectedHolder now clientId c) →
    (RemoveStaleConnections clientId excludeIdx now i table).1 = true := by
  intro table
  induction table with
  | nil => intro i _ _ _ _; rfl
  | cons slot rest ih
 =>
    intro i clientId excludeIdx now hnp
    simp only [RemoveStaleConnections, Bool.and_eq_true]
    constructor
    · match slot with
      | none => rfl
      | some c =>
        rw [slotAction]
        by_cases hcond : i ≠ excludeIdx ∧ c.clientId = clientId
        · rw [if_pos hcond]
          have hnotp := hnp 0 c (by simp) (by omega)
          rw [protectedHolder] at hnotp
          push_neg at hnotp
          have hnp2 := hnotp hcond.2
          have hneg2 : ¬ (c.state = RELAY_STATE_REGISTERED ∧
              wsub now c.lastActivity < 5000) := by
            intro hand
            have h5 := hnp2.2 hand.1
            omega
          rw [if_neg hnp2.1, if_neg hneg2]
        · rw [if_neg hcond]
    · apply ih (i + 1) clientId excludeIdx now
      intro j c hj hne
      exact hnp (j + 1) c (by simpa using hj) (by omega)

lemma modifySlot_get_self : ∀ (l : List (Option RELAY_CONNECTION)) (idx : Nat)
    (f : RELAY_CONNECTION → RELAY_CONNECTION),
    (modifySlot f idx l)[idx]? = (l[idx]?).map (Option.map f) := by
  intro l
  induction l with
  | nil => intro idx f; simp [modifySlot]
  | cons slot rest ih =>
    intro idx f
    match idx with
    | 0 => simp [modifySlot]
    | idx + 1 =>
      simp only [modifySlot, List.getElem?_cons_succ]
      exact ih idx f

lemma modifySlot_get_ne : ∀ (l : List (Option RELAY_CONNECTION)) (idx j : Nat)
    (f : RELAY_CONNECTION → RELAY_CONNECTION), j ≠ idx →
    (modifySlot f idx l)[j]? = l[j]? := by
  intro l
  induction l with
  | nil => intro idx j f _; simp [modifySlot]
  | cons slot rest ih =>
    intro idx j f hne
    match idx, j with
    | 0, 0 => omega
    | 0, j + 1 => simp [modifySlot]
    | idx + 1, 0 => simp [modifySlot]
    | idx + 1, j + 1 =>
      simp only [modifySlot, List.getElem?_cons_succ]
      exact ih idx j f (by omega)

/-- C5: relay duplicate-ID policy.  If some other live connection holds the
    id in state Paired, or in Registered with activity within 5 seconds, the
    registrant gets REGISTER_RESPONSE{DUPLICATE} and is closed while that
    holder's slot is untouched; if every other holder of the id is Registered
    but idle at least 5 seconds or in another state, each such holder's slot
    is closed and freed and the registration succeeds with OK, the registrant
    becoming Registered with the id and a fresh activity stamp. -/
theorem C5_register_policy (clientId idx now : Nat)
    (table : List (Option RELAY_CONNECTION)) :
    (∀ j c, table[j]? = some (some c) → j ≠ idx → protectedHolder now clientId c →
      (ProcessRelayRegister clientId idx now table).1 = RegStatus.duplicate ∧
      (ProcessRelayRegister clientId idx now table).2.1 = true ∧
      (ProcessRelayRegister clientId idx now table).2.2[j]? = some (some c)) ∧
    ((∀ j c, table[j]? = some (some c) → j ≠ idx → ¬ protectedHolder now clientId c) →
      (ProcessRelayRegister clientId idx now table).1 = RegStatus.ok ∧
      (ProcessRelayRegister clientId idx now table).2.1 = false ∧
      (∀ j c, table[j]? = some (some c) → j ≠ idx → c.clientId = clientId →
        (ProcessRelayRegister clientId idx now table).2.2[j]? = some none) ∧
      (∀ c, table[idx]? = some (some c) →
        (ProcessRelayRegister clientId idx now table).2.2[idx]?
          = some (some
              { c with
                clientId := clientId
                state := RELAY_STATE_REGISTERED
                lastActivity := now }))) := by
  constructor
  · intro j c hj hne hprot
    have hfalse := removeStale_fst_false table 0 j clientId idx now c hj (by omega) hprot
    have hslot := removeStale_snd table 0 j clientId idx now
    rw [ProcessRelayRegister]
    rw [if_neg (by rw [hfalse]; simp)]
    refine ⟨rfl, rfl, ?_⟩
    rw [hslot, hj]
    simp only [Option.map_some']
    rw [slotAction, if_pos (⟨by omega, hprot.1⟩ : (0 + j ≠ idx) ∧ c.clientId = clientId)]
    rcases hprot.2 with hp | hp
    · rw [if_pos hp]
    · by_cases hpair : c.state = RELAY_STATE_PAIRED
      · rw [if_pos hpair]
      · rw [if_neg hpair, if_pos hp]
  · intro hnp
    have htrue := removeStale_fst_true table 0 clientId idx now
      (fun j c hj hne => hnp j c hj (by omega))
    rw [ProcessRelayRegister]
    rw [if_pos (by rw [htrue])]
    refine ⟨rfl, rfl, ?_, ?_⟩
    · intro j c hj hne hid
      rw [modifySlot_get_ne _ idx j _ hne]
      have hslot := removeStale_snd table 0 j clientId idx now
      rw [hslot, hj]
      simp only [Option.map_some']
      have hnotp := hnp j c hj hne
      rw [protectedHolder] at hnotp
      push_neg at hnotp
      have hnp2 := hnotp hid
      have hneg2 : ¬ (c.state = RELAY_STATE_REGISTERED ∧
          wsub now c.lastActivity < 5000) := by
        intro hand
        have h5 := hnp2.2 hand.1
        omega
      rw [slotAction, if_pos (⟨by omega, hid⟩ : (0 + j ≠ idx) ∧ c.clientId = clientId)]
      rw [if_neg hnp2.1, if_neg hneg2]
    · intro c hc
      rw [modifySlot_get_self]
      have hslot := removeStale_snd table 0 idx clientId idx now
      rw [hslot, hc]
      simp only [Option.map_some']
      rw [slotAction, if_neg]
      · simp
      · intro hcond
        exact hcond.1 (by omega)

/-- Witness for C5: a stale REGISTERED holder (idle 9900 ms) is displaced and
    registration succeeds; a PAIRED holder forces a DUPLICATE rejection. -/
theorem C5_register_policy_witness :
    (ProcessRelayRegister 7 1 10000
        [some ⟨7, RELAY_STATE_REGISTERED, 100, false, false⟩,
         some ⟨0, RELAY_STATE_CONNECTED, 200, false, false⟩]).1 = RegStatus.ok ∧
    (ProcessRelayRegister 7 1 3000
        [some ⟨7, RELAY_STATE_PAIRED, 100, true, true⟩,
         some ⟨0, RELAY_STATE_CONNECTED, 100, false, false⟩]).1 = RegStatus.duplicate := by
  constructor
  · refine ((C5_register_policy 7 1 10000 _).2 ?_).1
    intro j c hj hne
    match j with
    | 0 =>
      simp only [List.getElem?_cons_zero, Option.some_inj] at hj
      intro hprot
      rw [← hj] at hprot
      rcases hprot with ⟨_, hp | hp⟩
      · exact absurd hp (by decide)
      · exact absurd hp.2 (by decide)
    | 1 => exact absurd rfl hne
    | j + 2 => simp at hj
  · exact ((C5_register_policy 7 1 3000 _).1 0 ⟨7, RELAY_STATE_PAIRED, 100, true, true⟩
      rfl (by decide) ⟨rfl, Or.inl rfl⟩).1

/-- Connection fields used by the worker-exit path of ClientWorkerThread
    (relay/relay.c): hasPartner models pPartner != NULL for this connection,
    socketValid its socket, disconnectEvent its hDisconnectEvent. -/
structure WORKER_CONNECTION where
  clientId : Nat
  state : Nat
  hasPartner : Bool
  socketValid : Bool
  disconnectEvent : Bool
deriving DecidableEq

/-- Cleanup block of ClientWorkerThread (relay/relay.c lines 669-744), run
    whenever the worker loop exits for any reason.  Arguments: the exiting
    connection and its partner reference (pConn->pPartner).  If the partner
    is referenced and its socket is valid, a MSG_PARTNER_DISCONNECTED
    notification is sent (third component), the partner's disconnect event is
    signalled, its partner pointer cleared and its state set back to
    RELAY_STATE_REGISTERED (line 704); the exiting connection always ends
    DISCONNECTED with its socket closed and slot freed. -/
def workerCleanup (self : WORKER_CONNECTION) (partnerRef : Option WORKER_CONNECTION) :
    WORKER_CONNECTION × Option WORKER_CONNECTION × Bool :=
  match partnerRef with
  | some p =>
    if p.socketValid then
      ({ self with
          state := RELAY_STATE_DISCONNECTED
          hasPartner := false
          socketValid := false },
       some { p with
          hasPartner := false
          state := RELAY_STATE_REGISTERED
          disconnectEvent := true },
       true)
    else
      ({ self with
          state := RELAY_STATE_DISCONNECTED
          hasPartner := false
          socketValid := false },
       some p, false)
  | none =>
    ({ self with
        state := RELAY_STATE_DISCONNECTED
        hasPartner := false
        socketValid := false },
     none, false)

/-- Head of the worker loop (relay/relay.c lines 601-610): a signalled
    disconnect event makes the worker break out and run its own cleanup. -/
def workerObserveEvent (c : WORKER_CONNECTION) (partnerRef : Option WORKER_CONNECTION) :
    WORKER_CONNECTION × Option WORKER_CONNECTION × Bool :=
  if c.disconnectEvent then workerCleanup c partnerRef else (c, partnerRef, false)

/-- C6 counterexample: when a Paired connection's worker exits, the cleanup
    sets the still-alive partner to state Registered (relay/relay.c line 704,
    "Back to registered state"), so the partner is put exactly into the state
    the claim says it never holds. -/
theorem C6_counterexample :
    (workerCleanup ⟨2, RELAY_STATE_PAIRED, true, true, false⟩
        (some ⟨1, RELAY_STATE_PAIRED, true, true, false⟩)).2.1
      = some ⟨1, RELAY_STATE_REGISTERED, false, true, true⟩ ∧
    RELAY_STATE_REGISTERED ≠ RELAY_STATE_DISCONNECTED := by
  constructor
  · decide
  · decide

/-- C6 (amended): whenever a Paired connection's worker terminates, its
    still-alive partner is sent a partner-disconnected notification and its
    disconnect event is signalled; the cleanup sets the partner to state
    Registered (not Disconnected) with its partner reference cleared; the
    partner's own worker then observes the event, exits, and only then does
    the partner end in state Disconnected with its socket closed - so the
    partner cannot continue a session without reconnecting and
    re-registering, but it does transit through state Registered. -/
theorem C6_partner_term (A B : WORKER_CONNECTION) (hsock : A.socketValid = true) :
    (workerCleanup B (some A)).2.2 = true ∧
    (workerCleanup B (some A)).2.1
      = some { A with
          hasPartner := false
          state := RELAY_STATE_REGISTERED
          disconnectEvent := true } ∧
    (workerCleanup B (some A)).1.state = RELAY_STATE_DISCONNECTED ∧
    (workerObserveEvent
        { A with
          hasPartner := false
          state := RELAY_STATE_REGISTERED
          disconnectEvent := true } none).1.state = RELAY_STATE_DISCONNECTED ∧
    (workerObserveEvent
        { A with
          hasPartner := false
          state := RELAY_STATE_REGISTERED
          disconnectEvent := true } none).1.socketValid = false := by
  rw [workerCleanup]
  rw [if_pos hsock]
  refine ⟨rfl, rfl, rfl, ?_, ?_⟩
  · rw [workerObserveEvent, if_pos rfl, workerCleanup]
  · rw [workerObserveEvent, if_pos rfl, workerCleanup]

/-- Witness for C6_partner_term at a concrete paired pair. -/
theorem C6_partner_term_witness :
    (workerCleanup ⟨2, RELAY_STATE_PAIRED, true, true, false⟩
        (some ⟨1, RELAY_STATE_PAIRED, true, true, false⟩)).2.2 = true ∧
    (workerCleanup ⟨2, RELAY_STATE_PAIRED, true, true, false⟩
        (some ⟨1, RELAY_STATE_PAIRED, true, true, false⟩)).2.1
      = some { (⟨1, RELAY_STATE_PAIRED, true, true, false⟩ : WORKER_CONNECTION) with
          hasPartner := false
          state := RELAY_STATE_REGISTERED
          disconnectEvent := true } ∧
    (workerCleanup ⟨2, RELAY_STATE_PAIRED, true, true, false⟩
        (some ⟨1, RELAY_STATE_PAIRED, true, true, false⟩)).1.state
      = RELAY_STATE_DISCONNECTED ∧
    (workerObserveEvent
        { (⟨1, RELAY_STATE_PAIRED, true, true, false⟩ : WORKER_CONNECTION) with
          hasPartner := false
          state := RELAY_STATE_REGISTERED
          disconnectEvent := true } none).1.state = RELAY_STATE_DISCONNECTED ∧
    (workerObserveEvent
        { (⟨1, RELAY_STATE_PAIRED, true, true, false⟩ : WORKER_CONNECTION) with
          hasPartner := false
          state := RELAY_STATE_REGISTERED
          disconnectEvent := true } none).1.socketValid = false :=
  C6_partner_term ⟨1, RELAY_STATE_PAIRED, true, true, false⟩
    ⟨2, RELAY_STATE_PAIRED, true, true, false⟩ rfl

/- ========== Server-ID codec (src/common/crypto.c lines 351-592) ========== -/

/-- Base32-like alphabet g_ServerIdAlphabet (crypto.c line 359):
    "ABCDEFGHJKMNPQRSTUVWXYZ23456789".  The string holds 31 characters
    (A-Z without I, L, O, plus the digits 2-9), although ALPHABET_SIZE is
    defined as 32 and the encoder indexes it with 5-bit values 0..31. -/
def g_ServerIdAlphabet : List Nat :=
  [65, 66, 67, 68, 69, 70, 71, 72, 74, 75, 77, 78, 80, 81, 82, 83, 84, 85,
   86, 87, 88, 89, 90, 50, 51, 52, 53, 54, 55, 56, 57]

/-- Array read g_ServerIdAlphabet[idx]: index 31 reads the string's NUL
    terminator, so the default 0 models exactly the C behaviour. -/
def alphabetChar (idx : Nat) : Nat := g_ServerIdAlphabet.getD idx 0

/-- strchr position of c in the alphabet (none models a NULL result). -/
def strchrIdx (c : Nat) : List Nat → Option Nat
  | [] => none
  | a :: rest => if a = c then some 0 else (strchrIdx c rest).map (. + 1)

/-- Contents of a C string buffer: the bytes before the first NUL. -/
def cstr (l : List Nat) : List Nat := l.takeWhile (fun c => c != 0)

/-- Inner while loop of EncodeBase32 (crypto.c lines 406-409): emit 5-bit
    symbols while bitCount >= 5.  The first argument is fuel bounding the
    iteration count (the loop runs bitCount/5 times, so fuel = bitCount
    always suffices); the result is the emitted characters and the
    remaining bitCount. -/
def emitChars : Nat → Nat → Nat → List Nat × Nat
  | 0, _, cnt => ([], cnt)
  | fuel + 1, buf, cnt =>
    if 5 ≤ cnt then
      let r := emitChars fuel buf (cnt - 5)
      (alphabetChar ((buf >>> (cnt - 5)) &&& 31) :: r.1, r.2)
    else ([], cnt)

/-- EncodeBase32 main loop (crypto.c lines 395-418) from accumulator state
    (bitBuffer, bitCount); bitBuffer is a 32-bit int. -/
def encodeBase32Aux : List Nat → Nat → Nat → List Nat
  | [], buf, cnt =>
    if 0 < cnt then [alphabetChar ((buf <<< (5 - cnt)) &&& 31)] else []
  | b :: rest, buf, cnt =>
    let buf2 := ((buf <<< 8) ||| b) % 4294967296
    let e := emitChars (cnt + 8) buf2 (cnt + 8)
    e.1 ++ encodeBase32Aux rest buf2 e.2

/-- EncodeBase32 (crypto.c lines 395-418); the result may contain embedded
    NUL bytes (alphabet index 31). -/
def EncodeBase32 (data : List Nat) : List Nat := encodeBase32Aux data 0 0

/-- FormatServerID loop (crypto.c lines 462-477): insert a dash before every
    fourth character, writing at most SERVER_ID_MAX_LEN - 1 = 19 bytes. -/
def formatServerIDAux : List Nat → Nat → Nat → List Nat
  | [], _, _ => []
  | c :: rest, i, j =>
    if j < 19 then
      if 0 < i ∧ i % 4 = 0 then 45 :: c :: formatServerIDAux rest (i + 1) (j + 2)
      else c :: formatServerIDAux rest (i + 1) (j + 1)
    else []

/-- FormatServerID (crypto.c lines 462-477); strlen stops at the first NUL. -/
def FormatServerID (raw : List Nat) : List Nat := formatServerIDAux (cstr raw) 0 0

/-- UnformatServerID (crypto.c lines 480-491): drop the dashes. -/
def UnformatServerID (formatted : List Nat) : List Nat :=
  (cstr formatted).filter (fun c => c != 45)

/-- C isspace characters skipped by sscanf %d. -/
def isSpaceC (c : Nat) : Bool := c == 32 || (9 ≤ c && c ≤ 13)

/-- Digit run of sscanf %d: accumulate decimal digits. -/
def parseDigitsAux : List Nat → Nat → Nat × List Nat
  | [], acc => (acc, [])
  | c :: rest, acc =>
    if 48 ≤ c ∧ c ≤ 57 then parseDigitsAux rest (acc * 10 + (c - 48))
    else (acc, c :: rest)

/-- One sscanf %d conversion: skip whitespace, optional sign, at least one
    digit. -/
def parseIntC (l : List Nat) : Option (Int × List Nat) :=
  match l.dropWhile isSpaceC with
  | 45 :: c :: rest =>
    if 48 ≤ c ∧ c ≤ 57 then
      let r := parseDigitsAux (c :: rest) 0
      some (-(r.1 : Int), r.2)
    else none
  | 43 :: c :: rest =>
    if 48 ≤ c ∧ c ≤ 57 then
      let r := parseDigitsAux (c :: rest) 0
      some ((r.1 : Int), r.2)
    else none
  | c :: rest =>
    if 48 ≤ c ∧ c ≤ 57 then
      let r := parseDigitsAux (c :: rest) 0
      some ((r.1 : Int), r.2)
    else none
  | [] => none

/-- Literal dot of the sscanf format "%d.%d.%d.%d". -/
def expectDot : List Nat → Option (List Nat)
  | 46 :: rest => some rest
  | _ => none

/-- ParseIPAddress (crypto.c lines 363-384): sscanf "%d.%d.%d.%d" then
    validate each part into 0..255. -/
def ParseIPAddress (s : List Nat) : Option (List Nat) :=
  (parseIntC s).bind fun pr0 =>
  (expectDot pr0.2).bind fun r1 =>
  (parseIntC r1).bind fun pr1 =>
  (expectDot pr1.2).bind fun r3 =>
  (parseIntC r3).bind fun pr2 =>
  (expectDot pr2.2).bind fun r5 =>
  (parseIntC r5).bind fun pr3 =>
  if 0 ≤ pr0.1 ∧ pr0.1 ≤ 255 ∧ 0 ≤ pr1.1 ∧ pr1.1 ≤ 255 ∧
      0 ≤ pr2.1 ∧ pr2.1 ≤ 255 ∧ 0 ≤ pr3.1 ∧ pr3.1 ≤ 255 then
    some [pr0.1.toNat, pr1.1.toNat, pr2.1.toNat, pr3.1.toNat]
  else none

/-- Decimal rendering of one sprintf %d value (fuel-bounded division loop;
    fuel = n suffices). -/
def natDecimalAux : Nat → Nat → List Nat
  | 0, n => [48 + n % 10]
  | fuel + 1, n =>
    if n < 10 then [48 + n] else natDecimalAux fuel (n / 10) ++ [48 + n % 10]

/-- FormatIPAddress (crypto.c lines 387-392): sprintf "%d.%d.%d.%d". -/
def FormatIPAddress (b : List Nat) : List Nat :=
  natDecimalAux (b.getD 0 0) (b.getD 0 0) ++ [46] ++
  natDecimalAux (b.getD 1 0) (b.getD 1 0) ++ [46] ++
  natDecimalAux (b.getD 2 0) (b.getD 2 0) ++ [46] ++
  natDecimalAux (b.getD 3 0) (b.getD 3 0)

/-- Crypto_EncodeServerID (crypto.c lines 499-541): pack 4 IP bytes, 2 port
    bytes big-endian, XOR checksum, marker 0x2A; encrypt; base32; dashes. -/
def Crypto_EncodeServerID (key : List Nat) (ipAddress : List Nat) (port : Nat) :
    Option (List Nat) :=
  match ParseIPAddress ipAddress with
  | none => none
  | some ip =>
    let b0 := ip.getD 0 0
    let b1 := ip.getD 1 0
    let b2 := ip.getD 2 0
    let b3 := ip.getD 3 0
    let p0 := (port >>> 8) &&& 255
    let p1 := port &&& 255
    let raw := [b0, b1, b2, b3, p0, p1, b0 ^^^ b1 ^^^ b2 ^^^ b3 ^^^ p0 ^^^ p1, 0x2A]
    some (FormatServerID (EncodeBase32 (Crypto_Encrypt key raw)))

/-- C toupper step of DecodeBase32 (crypto.c lines 438-440). -/
def toUpperC (c : Nat) : Nat := if 97 ≤ c ∧ c ≤ 122 then c - 97 + 65 else c

/-- Inner while loop of DecodeBase32 (crypto.c lines 452-455): emit bytes
    while bitCount >= 8 and outIdx < maxOutLen = 8.  Fuel-bounded as in
    emitChars; returns the bytes and the new (bitCount, outIdx). -/
def emitBytes : Nat → Nat → Nat → Nat → List Nat × Nat × Nat
  | 0, _, cnt, outIdx => ([], cnt, outIdx)
  | fuel + 1, buf, cnt, outIdx =>
    if 8 ≤ cnt ∧ outIdx < 8 then
      let r := emitBytes fuel buf (cnt - 8) (outIdx + 1)
      (((buf >>> (cnt - 8)) &&& 255) :: r.1, r.2)
    else ([], cnt, outIdx)

/-- DecodeBase32 main loop (crypto.c lines 421-459) with maxOutLen = 8:
    for each character while outIdx < 8: skip dashes, uppercase, look the
    character up in the alphabet (NULL -> error -1, modelled none),
    accumulate 5 bits, emit full bytes. -/
def decodeBase32Aux : List Nat → Nat → Nat → Nat → Option (List Nat)
  | [], _, _, _ => some []
  | c :: rest, buf, cnt, outIdx =>
    if outIdx < 8 then
      if c = 45 then decodeBase32Aux rest buf cnt outIdx
      else
        match strchrIdx (toUpperC c) g_ServerIdAlphabet with
        | none => none
        | some v =>
          let buf2 := ((buf <<< 5) ||| v) % 4294967296
          let e := emitBytes (cnt + 5) buf2 (cnt + 5) outIdx
          (decodeBase32Aux rest buf2 e.2.1 e.2.2).map (fun out => e.1 ++ out)
    else some []

/-- DecodeBase32 (crypto.c lines 421-459) into a zeroed 8-byte buffer;
    none models the -1 error return. -/
def DecodeBase32 (input : List Nat) : Option (List Nat) :=
  decodeBase32Aux (cstr input) 0 0 0

/-- Crypto_DecodeServerID (crypto.c lines 546-592): strip dashes, base32
    decode (error or fewer than 6 bytes -> invalid), decrypt the 8-byte
    zero-padded buffer, verify the XOR checksum of bytes 0..5 against byte
    6, and extract the dotted-decimal IP and big-endian port. -/
def Crypto_DecodeServerID (key : List Nat) (serverId : List Nat) :
    Option (List Nat × Nat) :=
  match DecodeBase32 (UnformatServerID serverId) with
  | none => none
  | some decoded =>
    if decoded.length < 6 then none
    else
      let padded := decoded ++ List.replicate (8 - decoded.length) 0
      let d := Crypto_Decrypt key padded
      let ck := d.getD 0 0 ^^^ d.getD 1 0 ^^^ d.getD 2 0 ^^^
        d.getD 3 0 ^^^ d.getD 4 0 ^^^ d.getD 5 0
      if ck ≠ d.getD 6 0 then none
      else
        some (FormatIPAddress d, ((d.getD 4 0 <<< 8) ||| d.getD 5 0) % 65536)

/-- C2: the Server-ID round trip fails on the code.  For ip 192.168.1.100
    and port 7 (default key), the tenth 5-bit group of the encrypted bytes
    is 31; g_ServerIdAlphabet has only 31 characters, so index 31 reads the
    string's NUL terminator and the encoded ID is truncated to
    "HYK2-QWRW-8"; decoding it fails with the invalid-encoding error
    instead of returning (ip, port).  For comparison, the same ip with port
    5000 encodes to the full "HYK2-QWS6-E56K-V" and decodes back exactly,
    confirming the embedding against the spec's scenario S3. -/
theorem C2_serverid_roundtrip_bug :
    Crypto_EncodeServerID g_DefaultKey
        [49, 57, 50, 46, 49, 54, 56, 46, 49, 46, 49, 48, 48] 7
      = some [72, 89, 75, 50, 45, 81, 87, 82, 87, 45, 56] ∧
    Crypto_DecodeServerID g_DefaultKey [72, 89, 75, 50, 45, 81, 87, 82, 87, 45, 56]
      = none ∧
    Crypto_EncodeServerID g_DefaultKey
        [49, 57, 50, 46, 49, 54, 56, 46, 49, 46, 49, 48, 48] 5000
      = some [72, 89, 75, 50, 45, 81, 87, 83, 54, 45, 69, 53, 54, 75, 45, 86] ∧
    Crypto_DecodeServerID g_DefaultKey
        [72, 89, 75, 50, 45, 81, 87, 83, 54, 45, 69, 53, 54, 75, 45, 86]
      = some ([49, 57, 50, 46, 49, 54, 56, 46, 49, 46, 49, 48, 48], 5000) := by
  refine ⟨?_, ?_, ?_, ?_⟩ <;> rfl

end RD2K
